import Mathlib

/-! # LOD scheduler of minko: a shallow embedding of `AbstractLodScheduler.cpp`
and of the HTTP request of `HTTPRequest.cpp`

The scheduler is a single-threaded object whose methods mutate its fields and
call virtual hooks.  Every method is embedded as a pure function from the
scheduler state to the new state together with the list of hook invocations
(and property-store writes) it performs, in the order the C++ code performs
them.

Conventions of the embedding

* shared pointers (`Surface::Ptr`, `Provider::Ptr`, `MasterLodScheduler::Ptr`)
  are compared by identity only, so they are natural numbers; `nullptr` for the
  master scheduler binding is `none`;
* `Layout` is an unsigned bitmask; only `&` is applied to it, so it is a
  natural number with `&&&`;
* the C++ `float` type (frame time, priority) is never computed with, only
  stored, passed on and compared: it is a type parameter `F` with decidable
  equality;
* `std::list` queues are lists, `push_back` appends, `erase(find(..))` removes
  the first occurrence;
* the `_resources` and `_surfaceLayoutmaskChangedSlots` maps are association
  lists traversed in list order.
-/

namespace Minko

/-- A `Surface::Ptr`, compared by pointer identity. -/
abbrev SurfacePtr := Nat

/-- The `Layout` bitmask type (an unsigned integer). -/
abbrev Layout := Nat

/-- A `Provider::Ptr`: the identity of the provider object and the uuid that
`data->uuid()` returns. -/
structure Provider where
  ptr : Nat
  uuid : String
deriving DecidableEq, Repr

/-- The slot returned by `propertyChanged().connect(..)`: the identity of the
connection object and the provider whose signal it is connected to. -/
structure PropertySlot where
  id : Nat
  source : Provider
deriving DecidableEq, Repr

/-- The `LodInfo` value type: required level of detail and priority. -/
structure LodInfo (F : Type) where
  requiredLod : Int
  priority : F
deriving DecidableEq, Repr

/-- Modelled from the spec: `LodInfo::equals` is declared in the header, which
is not among the sources; the spec says a `LodInfo` is "compared by value
equality", that is field by field. -/
def LodInfo.equals {F : Type} [DecidableEq F] (a b : LodInfo F) : Bool :=
  a.requiredLod == b.requiredLod && a.priority == b.priority

/-- The `ResourceInfo` record kept for every registered resource. -/
structure ResourceInfo (F : Type) where
  data : Provider
  lodInfo : LodInfo F
  propertyChangedSlot : Option PropertySlot
  lodRequirementIsInvalid : Bool
deriving DecidableEq, Repr

/-- A value written to a provider with `data->set(name, value)`. -/
inductive PropertyValue (F : Type) where
  | int (i : Int)
  | float (f : F)
deriving DecidableEq, Repr

/-- The observable calls a scheduler method makes: the virtual hooks
`surfaceRemoved`, `surfaceAdded`, `lodInfo` (the policy) and `lodInfoChanged`,
and the writes `data->set(name, value)` to a provider. -/
inductive Event (F : Type) where
  | surfaceRemoved (surface : SurfacePtr)
  | surfaceAdded (surface : SurfacePtr)
  | lodInfo (resource : ResourceInfo F) (time : F)
  | lodInfoChanged (resource : ResourceInfo F) (previousLodInfo lodInfo : LodInfo F)
  | set (data : Provider) (propertyName : String) (value : PropertyValue F)
deriving DecidableEq, Repr

/-- The part of the scene graph the scheduler reads about a surface:
`surface->target()->layout()`, `surface->layoutMask()`, and the constant
`BuiltinLayout::HIDDEN` (declared outside the sources, hence a parameter). -/
structure Scene where
  HIDDEN : Layout
  targetLayout : SurfacePtr → Layout
  surfaceLayoutMask : SurfacePtr → Layout

/-- A `Node::Ptr`, compared by pointer identity. -/
abbrev NodePtr := Nat

/-- A pointer to a component (scene manager, renderer, master scheduler) that
may be `nullptr`, which is `none`. -/
abbrev ComponentPtr := Option Nat

/-- The slot of a connection to a signal of a bound scene manager or renderer:
the identity of the connection object and the component it was made on. -/
structure BindingSlot where
  id : Nat
  source : Nat
deriving DecidableEq, Repr

/-- The fields of `AbstractLodScheduler` (with the `layoutMask` field it
inherits from `AbstractComponent`).  `nextSlot` is the identity the next
connection object created by a `connect` call will get.  The slots of the
hierarchy binding are empty in a newly constructed scheduler. -/
structure AbstractLodScheduler (F : Type) where
  masterLodScheduler : Option Nat
  resources : List (String × ResourceInfo F)
  surfaceLayoutmaskChangedSlots : List (SurfacePtr × Nat)
  addedSurfaces : List SurfacePtr
  removedSurfaces : List SurfacePtr
  enabled : Bool
  frameTime : F
  layoutMask : Layout
  nextSlot : Nat
  nodeLayoutChangedSlots : List (NodePtr × Nat) := []
  frameBeginSlot : Option BindingSlot := none
  rootNodePropertyChangedSlot : Option BindingSlot := none
  rendererNodePropertyChangedSlot : Option BindingSlot := none
deriving DecidableEq, Repr

variable {F : Type}

/-! ## Pending queues -/

/-- `AbstractLodScheduler::addPendingSurface`. -/
def addPendingSurface (surface : SurfacePtr) (st : AbstractLodScheduler F) :
    AbstractLodScheduler F :=
  let inAdded := decide (surface ∈ st.addedSurfaces)
  let inRemoved := decide (surface ∈ st.removedSurfaces)
  let removed1 := if inRemoved then st.removedSurfaces.erase surface else st.removedSurfaces
  let added1 := if !inAdded then st.addedSurfaces ++ [surface] else st.addedSurfaces
  { st with addedSurfaces := added1, removedSurfaces := removed1 }

/-- `AbstractLodScheduler::removePendingSurface`. -/
def removePendingSurface (surface : SurfacePtr) (st : AbstractLodScheduler F) :
    AbstractLodScheduler F :=
  let inAdded := decide (surface ∈ st.addedSurfaces)
  let inRemoved := decide (surface ∈ st.removedSurfaces)
  let added1 := if inAdded then st.addedSurfaces.erase surface else st.addedSurfaces
  let removed1 := if !inRemoved then st.removedSurfaces ++ [surface] else st.removedSurfaces
  { st with addedSurfaces := added1, removedSurfaces := removed1 }

/-- The loop `while (!queue.empty()) { s = queue.front(); queue.pop_front(); hook(s); }`
of `collectSurfaces`: returns the queue left at loop exit and the hook calls
made, in order.  The hooks are the no-op defaults, which do not touch the
queues. -/
def drainQueue (hook : SurfacePtr → Event F) :
    List SurfacePtr → List SurfacePtr × List (Event F)
  | [] => ([], [])
  | surface :: rest =>
      let r := drainQueue hook rest
      (r.1, hook surface :: r.2)

/-- `AbstractLodScheduler::collectSurfaces`. -/
def collectSurfaces (st : AbstractLodScheduler F) :
    AbstractLodScheduler F × List (Event F) :=
  let r := drainQueue Event.surfaceRemoved st.removedSurfaces
  let st1 := { st with removedSurfaces := r.1 }
  if st1.masterLodScheduler ≠ none then
    let a := drainQueue Event.surfaceAdded st1.addedSurfaces
    ({ st1 with addedSurfaces := a.1 }, r.2 ++ a.2)
  else
    (st1, r.2)

/-! ## Surface visibility -/

/-- `AbstractLodScheduler::checkSurfaceLayout`. -/
def checkSurfaceLayout (scene : Scene) (st : AbstractLodScheduler F)
    (surface : SurfacePtr) : Bool :=
  let surfaceLayout := scene.targetLayout surface &&& scene.surfaceLayoutMask surface
  if surfaceLayout &&& scene.HIDDEN ≠ 0 then
    false
  else
    decide (st.layoutMask &&& surfaceLayout ≠ 0)

/-- `AbstractLodScheduler::surfaceLayoutMaskInvalidated`. -/
def surfaceLayoutMaskInvalidated (scene : Scene) (surface : SurfacePtr)
    (st : AbstractLodScheduler F) : AbstractLodScheduler F :=
  if checkSurfaceLayout scene st surface then
    addPendingSurface surface st
  else
    removePendingSurface surface st

/-- `AbstractLodScheduler::layoutMask(Layout value)`: the inherited setter
stores the mask, then every watched surface is re-evaluated. -/
def layoutMask (scene : Scene) (value : Layout) (st : AbstractLodScheduler F) :
    AbstractLodScheduler F :=
  let st1 := { st with layoutMask := value }
  st1.surfaceLayoutmaskChangedSlots.foldl
    (fun acc surfaceEntry => surfaceLayoutMaskInvalidated scene surfaceEntry.1 acc) st1

/-! ## Resource registry -/

/-- The entry `ResourceInfo(data)` builds.  The constructor is declared in the
header, which is not among the sources: the `LodInfo` and the dirty flag it
starts with are parameters. -/
def ResourceInfo.ofData (lodInfo0 : LodInfo F) (invalid0 : Bool) (data : Provider) :
    ResourceInfo F :=
  { data := data, lodInfo := lodInfo0, propertyChangedSlot := none,
    lodRequirementIsInvalid := invalid0 }

/-- `std::map::insert` on an association list: an entry already stored under
the key is kept and nothing is inserted, otherwise the pair is added. -/
def mapInsert {V : Type} (key : String) (value : V) :
    List (String × V) → List (String × V)
  | [] => [(key, value)]
  | (k, v) :: rest =>
      if k = key then (k, v) :: rest else (k, v) :: mapInsert key value rest

/-- The entry stored under a key (`find` / `at`). -/
def mapFind {V : Type} (key : String) : List (String × V) → Option V
  | [] => none
  | (k, v) :: rest => if k = key then some v else mapFind key rest

/-- Assignment through a reference to the entry stored under a key. -/
def mapModify {V : Type} (key : String) (f : V → V) :
    List (String × V) → List (String × V)
  | [] => []
  | (k, v) :: rest =>
      if k = key then (k, f v) :: rest else (k, v) :: mapModify key f rest

/-- `AbstractLodScheduler::registerResource`: insert `ResourceInfo(data)` under
`data->uuid()`, then assign to the `propertyChangedSlot` of the entry found
under that key the slot of a new connection to the `propertyChanged` signal of
that entry's own `data`.  Returns the new state and the entry the returned
reference designates. -/
def registerResource (lodInfo0 : LodInfo F) (invalid0 : Bool) (data : Provider)
    (st : AbstractLodScheduler F) : AbstractLodScheduler F × Option (ResourceInfo F) :=
  let uuid := data.uuid
  let resources1 := mapInsert uuid (ResourceInfo.ofData lodInfo0 invalid0 data) st.resources
  let resources2 := mapModify uuid
    (fun insertedResource =>
      { insertedResource with
        propertyChangedSlot := some { id := st.nextSlot, source := insertedResource.data } })
    resources1
  ({ st with resources := resources2, nextSlot := st.nextSlot + 1 }, mapFind uuid resources2)

/-- `AbstractLodScheduler::unregisterResource`. -/
def unregisterResource (uuid : String) (st : AbstractLodScheduler F) :
    AbstractLodScheduler F :=
  { st with resources := st.resources.filter (fun e => e.1 ≠ uuid) }

/-- `AbstractLodScheduler::invalidateLodRequirement()`: every entry is marked
dirty. -/
def invalidateLodRequirement (st : AbstractLodScheduler F) : AbstractLodScheduler F :=
  { st with resources :=
      st.resources.map (fun e => (e.1, { e.2 with lodRequirementIsInvalid := true })) }

/-! ## Update loop -/

/-- The default `AbstractLodScheduler::lodInfoChanged`: the writes it makes to
the resource's provider, in order. -/
def lodInfoChanged [DecidableEq F] (resource : ResourceInfo F) (previousLodInfo lodInfo : LodInfo F) :
    List (Event F) :=
  (if previousLodInfo.requiredLod ≠ lodInfo.requiredLod then
      [Event.set resource.data "requiredLod" (PropertyValue.int lodInfo.requiredLod)]
    else [])
  ++
  (if previousLodInfo.priority ≠ lodInfo.priority then
      [Event.set resource.data "priority" (PropertyValue.float lodInfo.priority)]
    else [])

/-- The body of the loop of `updated` for one registry entry.  `policy` is the
pure virtual `lodInfo(resource, time)`. -/
def updateResource [DecidableEq F] (policy : ResourceInfo F → F → LodInfo F) (time : F)
    (resource : ResourceInfo F) : ResourceInfo F × List (Event F) :=
  if !resource.lodRequirementIsInvalid then
    (resource, [])
  else
    let resource1 := { resource with lodRequirementIsInvalid := false }
    let lodInfo := policy resource1 time
    if !resource1.lodInfo.equals lodInfo then
      let previousLodInfo := resource1.lodInfo
      let resource2 := { resource1 with lodInfo := lodInfo }
      (resource2,
        [Event.lodInfo resource1 time, Event.lodInfoChanged resource2 previousLodInfo lodInfo]
          ++ lodInfoChanged resource2 previousLodInfo lodInfo)
    else
      (resource1, [Event.lodInfo resource1 time])

/-- The loop `for (auto& uuidToResourcePair : _resources)` of `updated`. -/
def updateResources [DecidableEq F] (policy : ResourceInfo F → F → LodInfo F) (time : F) :
    List (String × ResourceInfo F) → List (String × ResourceInfo F) × List (Event F)
  | [] => ([], [])
  | (uuid, resource) :: rest =>
      let r := updateResource policy time resource
      let rs := updateResources policy time rest
      ((uuid, r.1) :: rs.1, r.2 ++ rs.2)

/-- `AbstractLodScheduler::updated`. -/
def updated [DecidableEq F] (policy : ResourceInfo F → F → LodInfo F) (time : F)
    (st : AbstractLodScheduler F) : AbstractLodScheduler F × List (Event F) :=
  let c := collectSurfaces st
  let r := updateResources policy time c.1.resources
  ({ c.1 with resources := r.1 }, c.2 ++ r.2)

/-- `AbstractLodScheduler::frameBeginHandler`; the scene manager and the delta
time it also receives are not used by the body. -/
def frameBeginHandler [DecidableEq F] (policy : ResourceInfo F → F → LodInfo F) (time : F)
    (st : AbstractLodScheduler F) : AbstractLodScheduler F × List (Event F) :=
  let st1 := { st with frameTime := time }
  if !st1.enabled then
    (st1, [])
  else
    updated policy time st1

/-- `AbstractLodScheduler::forceUpdate`. -/
def forceUpdate [DecidableEq F] (policy : ResourceInfo F → F → LodInfo F)
    (st : AbstractLodScheduler F) : AbstractLodScheduler F × List (Event F) :=
  let st1 := invalidateLodRequirement st
  updated policy st1.frameTime st1

/-- Run `updated` once per given frame time, first time first; the hook calls
of all cycles are concatenated. -/
def updateCycles [DecidableEq F] (policy : ResourceInfo F → F → LodInfo F) :
    List F → AbstractLodScheduler F → AbstractLodScheduler F × List (Event F)
  | [], st => (st, [])
  | time :: times, st =>
      let r := updated policy time st
      let rs := updateCycles policy times r.1
      (rs.1, r.2 ++ rs.2)

/-- The phase of the update cycle a call belongs to: removals, additions, LOD
recomputation. -/
def Event.phase : Event F → Nat
  | .surfaceRemoved _ => 0
  | .surfaceAdded _ => 1
  | .lodInfo _ _ => 2
  | .lodInfoChanged _ _ _ => 2
  | .set _ _ _ => 2

/-- The provider a call concerns, for the calls of the recompute phase. -/
def Event.provider? : Event F → Option Provider
  | .surfaceRemoved _ => none
  | .surfaceAdded _ => none
  | .lodInfo r _ => some r.data
  | .lodInfoChanged r _ _ => some r.data
  | .set d _ _ => some d

/-! ## Sequences of queue operations -/

/-- One call on the pending queues: `addPendingSurface`, `removePendingSurface`
or `collectSurfaces`. -/
inductive QueueCall where
  | add (surface : SurfacePtr)
  | remove (surface : SurfacePtr)
  | collect
deriving DecidableEq, Repr

/-- Perform one call on the pending queues. -/
def QueueCall.run (c : QueueCall) (st : AbstractLodScheduler F) : AbstractLodScheduler F :=
  match c with
  | .add s => addPendingSurface s st
  | .remove s => removePendingSurface s st
  | .collect => (collectSurfaces st).1

/-- Perform a finite sequence of calls, first call first. -/
def runCalls (calls : List QueueCall) (st : AbstractLodScheduler F) : AbstractLodScheduler F :=
  calls.foldl (fun acc c => c.run acc) st

/-- The pending-queue invariant: no surface twice in a queue, none in both. -/
def PendingQueuesOk (st : AbstractLodScheduler F) : Prop :=
  st.addedSurfaces.Nodup ∧ st.removedSurfaces.Nodup ∧
    ∀ s ∈ st.addedSurfaces, s ∉ st.removedSurfaces

instance (st : AbstractLodScheduler F) : Decidable (PendingQueuesOk st) := by
  unfold PendingQueuesOk
  infer_instance

/-! ## Reading a list of calls -/

/-- Is the call an invocation of the `lodInfoChanged` hook for the resource
whose provider is `p`? -/
def Event.isLodInfoChangedOf (p : Provider) : Event F → Bool
  | .lodInfoChanged r _ _ => decide (r.data = p)
  | _ => false

/-- Is the call a write `p->set(..)` to the provider `p`? -/
def Event.isSetOf (p : Provider) : Event F → Bool
  | .set d _ _ => decide (d = p)
  | _ => false

/-- Is the call an invocation of the policy `lodInfo(resource, time)`? -/
def Event.isLodInfo : Event F → Bool
  | .lodInfo _ _ => true
  | _ => false

/-- Is the call an invocation of the `surfaceAdded` hook? -/
def Event.isSurfaceAdded : Event F → Bool
  | .surfaceAdded _ => true
  | _ => false

/-- Is the call an invocation of the `surfaceRemoved` hook? -/
def Event.isSurfaceRemoved : Event F → Bool
  | .surfaceRemoved _ => true
  | _ => false

/-- The resource as the policy and the hook see it during `updated`: the dirty
flag has been cleared. -/
def ResourceInfo.cleared (r : ResourceInfo F) : ResourceInfo F :=
  { r with lodRequirementIsInvalid := false }

/-- The registry is a map: no two entries under one key, and (as
`registerResource` stores them) every entry under the uuid of its own
provider. -/
def RegistryOk (st : AbstractLodScheduler F) : Prop :=
  (st.resources.map Prod.fst).Nodup ∧ ∀ e ∈ st.resources, e.1 = e.2.data.uuid

instance (st : AbstractLodScheduler F) : Decidable (RegistryOk st) := by
  unfold RegistryOk
  infer_instance

/-- Where a watched surface must be after its visibility was re-evaluated: in
the add queue only when visible, in the remove queue only when not. -/
def Routed (visible : Bool) (surface : SurfacePtr) (st : AbstractLodScheduler F) : Prop :=
  if visible then
    surface ∈ st.addedSurfaces ∧ surface ∉ st.removedSurfaces
  else
    surface ∈ st.removedSurfaces ∧ surface ∉ st.addedSurfaces

instance (visible : Bool) (surface : SurfacePtr) (st : AbstractLodScheduler F) :
    Decidable (Routed visible surface st) := by
  unfold Routed
  infer_instance

/-! ## Hierarchy binding

The handlers of the structural events.  A handler that dereferences a null
pointer has no defined result: it returns `none`.  The calls the binding
setters make to the no-op hooks `viewportChanged` and `viewPropertyChanged`
change no field of the scheduler and are not recorded. -/

/-- The part of the scene graph the handlers read, as it is when the handler
runs: `node->root()`, `NodeSet::create(node)->descendants(true)` (the node
itself, then its descendants), `node->components<Surface>()` and
`node->component<T>()` for the three bound component types. -/
structure SceneGraph where
  root : NodePtr → NodePtr
  descendants : NodePtr → List NodePtr
  surfaces : NodePtr → List SurfacePtr
  sceneManager : NodePtr → ComponentPtr
  renderer : NodePtr → ComponentPtr
  masterLodScheduler : NodePtr → ComponentPtr

/-- The three resolver slots `_sceneManagerFunction`, `_rendererFunction` and
`_masterLodSchedulerFunction`: each takes a `Node::Ptr`, which may be `nullptr`
(`none`), and returns a component pointer, or has no result when it
dereferences a null pointer. -/
structure ResolverFunctions where
  sceneManagerFunction : Option NodePtr → Option ComponentPtr
  rendererFunction : Option NodePtr → Option ComponentPtr
  masterLodSchedulerFunction : Option NodePtr → Option ComponentPtr

/-- `AbstractLodScheduler::defaultSceneManagerFunction`:
`node->root()->component<SceneManager>()`. -/
def defaultSceneManagerFunction (graph : SceneGraph) (node : Option NodePtr) :
    Option ComponentPtr :=
  match node with
  | none => none
  | some n => some (graph.sceneManager (graph.root n))

/-- `AbstractLodScheduler::defaultRendererFunction`: the renderer of the first
node, among the root and its descendants, that has one. -/
def defaultRendererFunction (graph : SceneGraph) (node : Option NodePtr) :
    Option ComponentPtr :=
  match node with
  | none => none
  | some n =>
      match (graph.descendants (graph.root n)).filter (fun d => (graph.renderer d).isSome) with
      | [] => some none
      | front :: _ => some (graph.renderer front)

/-- `AbstractLodScheduler::defaultMasterLodSchedulerFunction`:
`node->root()->component<MasterLodScheduler>()`. -/
def defaultMasterLodSchedulerFunction (graph : SceneGraph) (node : Option NodePtr) :
    Option ComponentPtr :=
  match node with
  | none => none
  | some n => some (graph.masterLodScheduler (graph.root n))

/-- The resolver functions `targetAdded` installs. -/
def defaultFunctions (graph : SceneGraph) : ResolverFunctions :=
  { sceneManagerFunction := defaultSceneManagerFunction graph,
    rendererFunction := defaultRendererFunction graph,
    masterLodSchedulerFunction := defaultMasterLodSchedulerFunction graph }

/-- `AbstractLodScheduler::sceneManagerSet`: both slots are released for
`nullptr`, otherwise both are assigned new connections made on the scene
manager (its `frameBegin` signal and the data of its target). -/
def sceneManagerSet (sceneManager : ComponentPtr) (st : AbstractLodScheduler F) :
    AbstractLodScheduler F :=
  match sceneManager with
  | none => { st with frameBeginSlot := none, rootNodePropertyChangedSlot := none }
  | some sm =>
      { st with
        frameBeginSlot := some { id := st.nextSlot, source := sm },
        rootNodePropertyChangedSlot := some { id := st.nextSlot + 1, source := sm },
        nextSlot := st.nextSlot + 2 }

/-- `AbstractLodScheduler::rendererSet`. -/
def rendererSet (renderer : ComponentPtr) (st : AbstractLodScheduler F) :
    AbstractLodScheduler F :=
  match renderer with
  | none => { st with rendererNodePropertyChangedSlot := none }
  | some r =>
      { st with
        rendererNodePropertyChangedSlot := some { id := st.nextSlot, source := r },
        nextSlot := st.nextSlot + 1 }

/-- `AbstractLodScheduler::masterLodSchedulerSet`. -/
def masterLodSchedulerSet (masterLodScheduler : ComponentPtr) (st : AbstractLodScheduler F) :
    AbstractLodScheduler F :=
  if st.masterLodScheduler ≠ masterLodScheduler then
    { st with masterLodScheduler := masterLodScheduler }
  else
    st

/-- `std::map::emplace` of a new connection under a pointer key: the
connection is made, and stored only when the key has no entry yet. -/
def slotsEmplace (key : Nat) (slot : Nat) (slots : List (Nat × Nat)) : List (Nat × Nat) :=
  if slots.any (fun e => e.1 == key) then slots else slots ++ [(key, slot)]

/-- `std::map::erase` of the entry under a pointer key. -/
def slotsErase (key : Nat) (slots : List (Nat × Nat)) : List (Nat × Nat) :=
  slots.filter (fun e => e.1 != key)

/-- `AbstractLodScheduler::watchSurface`. -/
def watchSurface (surface : SurfacePtr) (st : AbstractLodScheduler F) :
    AbstractLodScheduler F :=
  { st with
    surfaceLayoutmaskChangedSlots :=
      slotsEmplace surface st.nextSlot st.surfaceLayoutmaskChangedSlots,
    nextSlot := st.nextSlot + 1 }

/-- `AbstractLodScheduler::unwatchSurface`. -/
def unwatchSurface (surface : SurfacePtr) (st : AbstractLodScheduler F) :
    AbstractLodScheduler F :=
  { st with
    surfaceLayoutmaskChangedSlots := slotsErase surface st.surfaceLayoutmaskChangedSlots }

/-- The three re-resolutions that open `nodeAddedHandler` and
`nodeRemovedHandler`: each resolver is evaluated on `node` and its result
handed to the matching setter. -/
def resolveBindings (fns : ResolverFunctions) (node : Option NodePtr)
    (st : AbstractLodScheduler F) : Option (AbstractLodScheduler F) :=
  match fns.sceneManagerFunction node with
  | none => none
  | some sceneManager =>
      let st1 := sceneManagerSet sceneManager st
      match fns.rendererFunction node with
      | none => none
      | some renderer =>
          let st2 := rendererSet renderer st1
          match fns.masterLodSchedulerFunction node with
          | none => none
          | some masterLodScheduler => some (masterLodSchedulerSet masterLodScheduler st2)

/-- `AbstractLodScheduler::nodeAddedHandler(target, node)`. -/
def nodeAddedHandler (fns : ResolverFunctions) (graph : SceneGraph) (_target node : NodePtr)
    (st : AbstractLodScheduler F) : Option (AbstractLodScheduler F) :=
  match resolveBindings fns (some node) st with
  | none => none
  | some st1 =>
      let st2 :=
        { st1 with
          nodeLayoutChangedSlots := slotsEmplace node st1.nextSlot st1.nodeLayoutChangedSlots,
          nextSlot := st1.nextSlot + 1 }
      let meshNodes := (graph.descendants node).filter (fun d => !(graph.surfaces d).isEmpty)
      some (meshNodes.foldl
        (fun acc meshNode =>
          (graph.surfaces meshNode).foldl
            (fun acc1 surface => addPendingSurface surface (watchSurface surface acc1)) acc)
        st2)

/-- `AbstractLodScheduler::nodeRemovedHandler(target, node)`. -/
def nodeRemovedHandler (fns : ResolverFunctions) (graph : SceneGraph) (_target node : NodePtr)
    (st : AbstractLodScheduler F) : Option (AbstractLodScheduler F) :=
  match resolveBindings fns (some node) st with
  | none => none
  | some st1 =>
      let st2 :=
        { st1 with nodeLayoutChangedSlots := slotsErase node st1.nodeLayoutChangedSlots }
      some ((graph.surfaces node).foldl
        (fun acc surface => removePendingSurface surface (unwatchSurface surface acc)) st2)

/-- A component handed to the component handlers, by the type the
`dynamic_pointer_cast`s find. -/
inductive Component where
  | sceneManager (p : Nat)
  | renderer (p : Nat)
  | masterLodScheduler (p : Nat)
  | surface (s : SurfacePtr)
  | other (p : Nat)
deriving DecidableEq, Repr

/-- `AbstractLodScheduler::componentAddedHandler(target, component)`. -/
def componentAddedHandler (fns : ResolverFunctions) (scene : Scene) (target : NodePtr)
    (component : Component) (st : AbstractLodScheduler F) : Option (AbstractLodScheduler F) :=
  match component with
  | .sceneManager _ =>
      (fns.sceneManagerFunction (some target)).map (fun r => sceneManagerSet r st)
  | .renderer _ =>
      (fns.rendererFunction (some target)).map (fun r => rendererSet r st)
  | .masterLodScheduler _ =>
      (fns.masterLodSchedulerFunction (some target)).map (fun r => masterLodSchedulerSet r st)
  | .surface surface =>
      let st1 := watchSurface surface st
      some (if checkSurfaceLayout scene st1 surface then addPendingSurface surface st1 else st1)
  | .other _ => some st

/-- `AbstractLodScheduler::componentRemovedHandler(target, component)`: the
resolvers are called with `nullptr`. -/
def componentRemovedHandler (fns : ResolverFunctions) (_target : NodePtr)
    (component : Component) (st : AbstractLodScheduler F) : Option (AbstractLodScheduler F) :=
  match component with
  | .sceneManager _ =>
      (fns.sceneManagerFunction none).map (fun r => sceneManagerSet r st)
  | .renderer _ =>
      (fns.rendererFunction none).map (fun r => rendererSet r st)
  | .masterLodScheduler _ =>
      (fns.masterLodSchedulerFunction none).map (fun r => masterLodSchedulerSet r st)
  | .surface surface =>
      some (removePendingSurface surface (unwatchSurface surface st))
  | .other _ => some st

/-! ## HTTP request (`HTTPRequest.cpp`)

A `std::string` is a list of bytes, each a natural number below 256.  The
transfer itself is done by libcurl: what it reports is an input of `run`. -/

/-- `::isalnum(c)` in the C locale: a digit, an upper-case or a lower-case
ASCII letter. -/
def isalnum (c : Nat) : Bool :=
  (48 ≤ c && c ≤ 57) || (65 ≤ c && c ≤ 90) || (97 ≤ c && c ≤ 122)

/-- The set `authorizedCharacters` of `encodeUrl`: `/ : ~ - . _`. -/
def authorizedCharacters : List Nat :=
  [47, 58, 126, 45, 46, 95]

/-- `static_cast<int>(c)` for a `char` holding the byte `c` (`char` is signed:
bytes from 128 on are negative). -/
def charToInt (c : Nat) : Int :=
  if c < 128 then (c : Int) else (c : Int) - 256

/-- What `stream << std::hex << value` appends for an `int`: the lower-case
hexadecimal digits of the value read as an unsigned 32-bit number, without
padding. -/
def streamHex (value : Int) : List Nat :=
  (Nat.toDigits 16 (value % 2 ^ 32).toNat).map Char.toNat

/-- `encodeUrl`, from position `i` on, where the argument is the rest of the
string from that position.  `url.at(..)` past the end throws
`std::out_of_range`: the result is `none`. -/
def encodeUrl : List Nat → Option (List Nat)
  | [] => some []
  | c :: rest =>
      if c = 37 then
        match rest with
        | c1 :: c2 :: rest2 => (encodeUrl rest2).map (fun encoded => c :: c1 :: c2 :: encoded)
        | _ => none
      else if isalnum c || authorizedCharacters.contains c then
        (encodeUrl rest).map (fun encoded => c :: encoded)
      else
        (encodeUrl rest).map (fun encoded => 37 :: (streamHex (charToInt c) ++ encoded))

/-- The character of a hexadecimal digit value, lower case. -/
def hexDigit (d : Nat) : Nat :=
  if d < 10 then 48 + d else 87 + d

/-- The value of a hexadecimal digit character, of either case. -/
def hexValue? (c : Nat) : Option Nat :=
  if 48 ≤ c ∧ c ≤ 57 then some (c - 48)
  else if 97 ≤ c ∧ c ≤ 102 then some (c - 87)
  else if 65 ≤ c ∧ c ≤ 70 then some (c - 55)
  else none

/-- Standard percent-decoding, read left to right: `%` followed by two
hexadecimal digits stands for the byte with that code, every other byte stands
for itself. -/
def percentDecode : List Nat → List Nat
  | [] => []
  | [c] => [c]
  | [c, d] => c :: percentDecode [d]
  | c :: h1 :: h2 :: rest =>
      if c = 37 then
        match hexValue? h1, hexValue? h2 with
        | some a, some b => (16 * a + b) :: percentDecode rest
        | _, _ => c :: percentDecode (h1 :: h2 :: rest)
      else
        c :: percentDecode (h1 :: h2 :: rest)

/-- The encoding the claim describes for one byte: itself for an alphanumeric
or authorized character, otherwise `%` and the two hexadecimal digits of its
code. -/
def escapeByte (c : Nat) : List Nat :=
  if isalnum c || authorizedCharacters.contains c then [c]
  else [37, hexDigit (c / 16), hexDigit (c % 16)]

namespace HTTPRequest

/-- The libcurl result code `CURLE_OK`. -/
def CURLE_OK : Nat := 0

/-- What libcurl reports for one transfer: the result of `curl_easy_perform`,
the `long` response code of `curl_easy_getinfo`, the text left in
`curlErrorBuffer`, the ratios `curlProgressHandler` was called with and the
bytes `curlWriteHandler` accumulated in `_output`. -/
structure Transfer (F : Type) where
  res : Nat
  responseCode : Int
  errorBuffer : String
  progress : List F
  output : List Nat

/-- The executions of the three signals of a request. -/
inductive Notification (F : Type) where
  | progress (ratio : F)
  | error (code : Int) (message : String)
  | complete (output : List Nat)
deriving DecidableEq, Repr

/-- Conversion of the `long` response code to the `int` argument of the
`error` signal. -/
def longToInt (value : Int) : Int :=
  (value + 2 ^ 31) % 2 ^ 32 - 2 ^ 31

/-- The outcome of `createCurl`: `none` when `encodeUrl` throws, `some false`
when `curl_easy_init` returns no handle (`nullptr`), `some true` when the
handle is returned. -/
def createCurl (url : List Nat) (curlEasyInit : Bool) : Option Bool :=
  if !curlEasyInit then some false
  else
    match encodeUrl url with
    | none => none
    | some _ => some true

/-- `HTTPRequest::run`: the signal executions it makes, in order, and whether
it returned (`false` when the exception of `encodeUrl` leaves it). -/
def run {F : Type} [Zero F] [One F] (url : List Nat) (curlEasyInit : Bool)
    (transfer : Transfer F) : List (Notification F) × Bool :=
  match createCurl url curlEasyInit with
  | none => ([Notification.progress 0], false)
  | some false =>
      ([Notification.progress 0, Notification.error 1 "failed to initialize cURL context"], true)
  | some true =>
      let requestSucceeded :=
        transfer.res == CURLE_OK &&
          (transfer.responseCode == 200 || transfer.responseCode == 206)
      if !requestSucceeded then
        let errorMessage :=
          "status: " ++ toString transfer.responseCode ++
            (if transfer.res != CURLE_OK then ", error: " ++ transfer.errorBuffer else "")
        (Notification.progress 0 :: (transfer.progress.map Notification.progress ++
          [Notification.error (longToInt transfer.responseCode) errorMessage]), true)
      else
        (Notification.progress 0 :: (transfer.progress.map Notification.progress ++
          [Notification.progress 1, Notification.complete transfer.output]), true)

/-- Is the notification an execution of the `error` signal? -/
def Notification.isError {F : Type} : Notification F → Bool
  | .error _ _ => true
  | _ => false

/-- Is the notification an execution of the `complete` signal? -/
def Notification.isComplete {F : Type} : Notification F → Bool
  | .complete _ => true
  | _ => false

end HTTPRequest

/-! ## Concrete schedulers used as examples -/

/-- A scheduler with no resource, no watched surface and empty queues. -/
def emptyScheduler (master : Option Nat) : AbstractLodScheduler Int :=
  { masterLodScheduler := master, resources := [], surfaceLayoutmaskChangedSlots := [],
    addedSurfaces := [], removedSurfaces := [], enabled := true, frameTime := 0,
    layoutMask := 1, nextSlot := 0 }

/-- A scene in which `HIDDEN` is bit 5, every node has layout `33` (bits 0 and
5) and surface `s` has layout mask `s`. -/
def exampleScene : Scene :=
  { HIDDEN := 32, targetLayout := fun _ => 33, surfaceLayoutMask := fun s => s }

/-- The resource of the spec's scenario: registered with `requiredLod = 0`
and invalidated. -/
def exampleResource : ResourceInfo Int :=
  { data := { ptr := 1, uuid := "r" }, lodInfo := { requiredLod := 0, priority := 0 },
    propertyChangedSlot := some { id := 0, source := { ptr := 1, uuid := "r" } },
    lodRequirementIsInvalid := true }

/-- The `LodInfo` a new entry starts with in the examples: `DEFAULT_LOD = 0`
and priority 0. -/
def exampleLodInfo0 : LodInfo Int :=
  { requiredLod := 0, priority := 0 }

/-- A second resource, not dirty. -/
def cleanResource : ResourceInfo Int :=
  { data := { ptr := 2, uuid := "q" }, lodInfo := { requiredLod := 1, priority := 4 },
    propertyChangedSlot := some { id := 1, source := { ptr := 2, uuid := "q" } },
    lodRequirementIsInvalid := false }

/-- A scheduler with the two example resources registered, surfaces 1 and 63
watched, surface 3 waiting to be added and surface 4 to be removed. -/
def exampleScheduler (master : Option Nat) (enabled : Bool) : AbstractLodScheduler Int :=
  { masterLodScheduler := master,
    resources := [("r", exampleResource), ("q", cleanResource)],
    surfaceLayoutmaskChangedSlots := [(1, 2), (63, 3)],
    addedSurfaces := [3, 63], removedSurfaces := [4], enabled := enabled, frameTime := 0,
    layoutMask := 1, nextSlot := 4 }

/-- A policy that always asks for level 2 with priority 0. -/
def examplePolicy : ResourceInfo Int → Int → LodInfo Int :=
  fun _ _ => { requiredLod := 2, priority := 0 }

/-- A scene: the scheduler's target is node 0, which carries scene manager
100; node 10 is a child of node 0 and node 11, which carries surface 5, is a
child of node 10. -/
def exampleGraph : SceneGraph :=
  { root := fun _ => 0,
    descendants := fun n => if n = 0 then [0, 10, 11] else if n = 10 then [10, 11] else [n],
    surfaces := fun n => if n = 11 then [5] else [],
    sceneManager := fun n => if n = 0 then some 100 else none,
    renderer := fun _ => none,
    masterLodScheduler := fun _ => none }

/-- The same scene before node 11 was added under node 10. -/
def exampleGraphBefore : SceneGraph :=
  { exampleGraph with
    descendants := fun n => if n = 0 then [0, 10] else [n] }

/-- The same scene once node 10 has been removed from node 0: node 10 is the
root of the detached subtree. -/
def detachedGraph : SceneGraph :=
  { exampleGraph with
    root := fun n => if n = 0 then 0 else 10,
    descendants := fun n => if n = 0 then [0] else if n = 10 then [10, 11] else [n] }

/-- Node 10 (with its child 11) is added under the target, then removed. -/
def addedThenRemoved : Option (AbstractLodScheduler Int) :=
  (nodeAddedHandler (defaultFunctions exampleGraph) exampleGraph 0 10 (emptyScheduler none)).bind
    (nodeRemovedHandler (defaultFunctions detachedGraph) detachedGraph 0 10)

/-- Node 10 is added under the target, node 11 is added under node 10, then
node 10 is removed. -/
def addedTwiceThenRemoved : Option (AbstractLodScheduler Int) :=
  ((nodeAddedHandler (defaultFunctions exampleGraphBefore) exampleGraphBefore 0 10
      (emptyScheduler none)).bind
    (nodeAddedHandler (defaultFunctions exampleGraph) exampleGraph 0 11)).bind
    (nodeRemovedHandler (defaultFunctions detachedGraph) detachedGraph 0 10)

/-- The transfer of the spec's scenario: the server answers 404. -/
def notFoundTransfer : HTTPRequest.Transfer Int :=
  { res := HTTPRequest.CURLE_OK, responseCode := 404, errorBuffer := "", progress := [1],
    output := [] }

/-- The bytes of the URL `http://h/a b?q`. -/
def exampleUrl : List Nat :=
  [104, 116, 116, 112, 58, 47, 47, 104, 47, 97, 32, 98, 63, 113]

/-! # Theorems -/


/-! ## Lemmas on the pending queues -/

theorem drainQueue_fst (hook : SurfacePtr → Event F) (q : List SurfacePtr) :
    (drainQueue hook q).1 = [] := by
  induction q with
  | nil => rfl
  | cons s rest ih => simpa [drainQueue] using ih

theorem drainQueue_snd (hook : SurfacePtr → Event F) (q : List SurfacePtr) :
    (drainQueue hook q).2 = q.map hook := by
  induction q with
  | nil => rfl
  | cons s rest ih => simp [drainQueue, ih]

theorem collectSurfaces_removed (st : AbstractLodScheduler F) :
    (collectSurfaces st).1.removedSurfaces = [] := by
  unfold collectSurfaces
  by_cases h : st.masterLodScheduler = none <;> simp [h, drainQueue_fst]

theorem collectSurfaces_added (st : AbstractLodScheduler F) :
    (collectSurfaces st).1.addedSurfaces =
      if st.masterLodScheduler ≠ none then [] else st.addedSurfaces := by
  unfold collectSurfaces
  by_cases h : st.masterLodScheduler = none <;> simp [h, drainQueue_fst]

theorem collectSurfaces_events (st : AbstractLodScheduler F) :
    (collectSurfaces st).2 =
      st.removedSurfaces.map Event.surfaceRemoved ++
        (if st.masterLodScheduler ≠ none then st.addedSurfaces.map Event.surfaceAdded else []) := by
  unfold collectSurfaces
  by_cases h : st.masterLodScheduler = none <;> simp [h, drainQueue_snd]

theorem addPendingSurface_ok (s : SurfacePtr) (st : AbstractLodScheduler F)
    (h : PendingQueuesOk st) : PendingQueuesOk (addPendingSurface s st) := by
  obtain ⟨ha, hr, hd⟩ := h
  have hr1 : (st.removedSurfaces.erase s).Nodup := hr.erase s
  refine ⟨?_, ?_, ?_⟩
  · by_cases hin : s ∈ st.addedSurfaces
    · simpa [addPendingSurface, hin] using ha
    · simp only [addPendingSurface, hin, decide_False, Bool.not_false, if_true]
      exact List.nodup_append.2 ⟨ha, List.nodup_singleton s, by
        intro x hx hx1
        rw [List.mem_singleton] at hx1
        exact hin (hx1 ▸ hx)⟩
  · by_cases hin : s ∈ st.removedSurfaces
    · simpa [addPendingSurface, hin] using hr1
    · simpa [addPendingSurface, hin] using hr
  · intro x hxa hxr
    have hxr1 : x ∈ st.removedSurfaces.erase s := by
      by_cases hin : s ∈ st.removedSurfaces
      · simpa [addPendingSurface, hin] using hxr
      · rw [List.erase_of_not_mem hin]
        simpa [addPendingSurface, hin] using hxr
    have hx : x ≠ s ∧ x ∈ st.removedSurfaces := (hr.mem_erase_iff).1 hxr1
    have hxa1 : x ∈ st.addedSurfaces := by
      by_cases hin : s ∈ st.addedSurfaces
      · simpa [addPendingSurface, hin] using hxa
      · have : x ∈ st.addedSurfaces ++ [s] := by
          simpa [addPendingSurface, hin] using hxa
        rcases List.mem_append.1 this with h1 | h1
        · exact h1
        · exact absurd (List.mem_singleton.1 h1) hx.1
    exact hd x hxa1 hx.2

theorem removePendingSurface_ok (s : SurfacePtr) (st : AbstractLodScheduler F)
    (h : PendingQueuesOk st) : PendingQueuesOk (removePendingSurface s st) := by
  obtain ⟨ha, hr, hd⟩ := h
  have ha1 : (st.addedSurfaces.erase s).Nodup := ha.erase s
  refine ⟨?_, ?_, ?_⟩
  · by_cases hin : s ∈ st.addedSurfaces
    · simpa [removePendingSurface, hin] using ha1
    · simpa [removePendingSurface, hin] using ha
  · by_cases hin : s ∈ st.removedSurfaces
    · simpa [removePendingSurface, hin] using hr
    · simp only [removePendingSurface, hin, decide_False, Bool.not_false, if_true]
      exact List.nodup_append.2 ⟨hr, List.nodup_singleton s, by
        intro x hx hx1
        rw [List.mem_singleton] at hx1
        exact hin (hx1 ▸ hx)⟩
  · intro x hxa hxr
    have hxa1 : x ∈ st.addedSurfaces.erase s := by
      by_cases hin : s ∈ st.addedSurfaces
      · simpa [removePendingSurface, hin] using hxa
      · rw [List.erase_of_not_mem hin]
        simpa [removePendingSurface, hin] using hxa
    have hx : x ≠ s ∧ x ∈ st.addedSurfaces := (ha.mem_erase_iff).1 hxa1
    have hxr1 : x ∈ st.removedSurfaces := by
      by_cases hin : s ∈ st.removedSurfaces
      · simpa [removePendingSurface, hin] using hxr
      · have : x ∈ st.removedSurfaces ++ [s] := by
          simpa [removePendingSurface, hin] using hxr
        rcases List.mem_append.1 this with h1 | h1
        · exact h1
        · exact absurd (List.mem_singleton.1 h1) hx.1
    exact hd x hx.2 hxr1

theorem collectSurfaces_ok (st : AbstractLodScheduler F)
    (h : PendingQueuesOk st) : PendingQueuesOk (collectSurfaces st).1 := by
  obtain ⟨ha, _, _⟩ := h
  refine ⟨?_, ?_, ?_⟩
  · rw [collectSurfaces_added]
    split
    · exact List.nodup_nil
    · exact ha
  · rw [collectSurfaces_removed]
    exact List.nodup_nil
  · intro x _ hxr
    rw [collectSurfaces_removed] at hxr
    exact absurd hxr (List.not_mem_nil x)

theorem runCalls_ok (calls : List QueueCall) (st : AbstractLodScheduler F)
    (h : PendingQueuesOk st) : PendingQueuesOk (runCalls calls st) := by
  induction calls generalizing st with
  | nil => exact h
  | cons c rest ih =>
      have hstep : PendingQueuesOk (c.run st) := by
        cases c with
        | add s => exact addPendingSurface_ok s st h
        | remove s => exact removePendingSurface_ok s st h
        | collect => exact collectSurfaces_ok st h
      exact ih (c.run st) hstep

/-! ## The claims -/

/-- C1: starting from two empty queues, after every finite sequence of
`addPendingSurface`, `removePendingSurface` and `collectSurfaces` calls every
surface occurs at most once in the add queue, at most once in the remove queue,
and never in both. -/
theorem pending_queues_invariant (st : AbstractLodScheduler F)
    (hadd : st.addedSurfaces = []) (hrem : st.removedSurfaces = [])
    (calls : List QueueCall) :
    (∀ s, (runCalls calls st).addedSurfaces.count s ≤ 1) ∧
    (∀ s, (runCalls calls st).removedSurfaces.count s ≤ 1) ∧
    (∀ s, ¬ (s ∈ (runCalls calls st).addedSurfaces ∧
              s ∈ (runCalls calls st).removedSurfaces)) := by
  have h0 : PendingQueuesOk st := by
    refine ⟨?_, ?_, ?_⟩
    · rw [hadd]; exact List.nodup_nil
    · rw [hrem]; exact List.nodup_nil
    · intro s hs _
      rw [hadd] at hs
      exact absurd hs (List.not_mem_nil s)
  obtain ⟨ha, hr, hd⟩ := runCalls_ok calls st h0
  exact ⟨fun s => List.nodup_iff_count_le_one.1 ha s,
    fun s => List.nodup_iff_count_le_one.1 hr s, fun s hs => hd s hs.1 hs.2⟩

/-- Witness for C1: from the empty scheduler, a sequence that adds, removes,
re-adds and collects. -/
theorem pending_queues_invariant_witness :
    (emptyScheduler none).addedSurfaces = [] ∧ (emptyScheduler none).removedSurfaces = [] ∧
    ((∀ s, (runCalls [.add 1, .add 2, .remove 1, .add 1, .collect, .remove 2, .add 3]
        (emptyScheduler none)).addedSurfaces.count s ≤ 1) ∧
    (∀ s, (runCalls [.add 1, .add 2, .remove 1, .add 1, .collect, .remove 2, .add 3]
        (emptyScheduler none)).removedSurfaces.count s ≤ 1) ∧
    (∀ s, ¬ (s ∈ (runCalls [.add 1, .add 2, .remove 1, .add 1, .collect, .remove 2, .add 3]
        (emptyScheduler none)).addedSurfaces ∧
      s ∈ (runCalls [.add 1, .add 2, .remove 1, .add 1, .collect, .remove 2, .add 3]
        (emptyScheduler none)).removedSurfaces))) :=
  ⟨rfl, rfl, pending_queues_invariant (emptyScheduler none) rfl rfl
    [.add 1, .add 2, .remove 1, .add 1, .collect, .remove 2, .add 3]⟩

/-- C2: `checkSurfaceLayout` returns true if and only if the node layout masked
by the surface's layout mask has no `HIDDEN` bit and meets the scheduler's
layout mask; in particular it returns false whenever the masked layout contains
`HIDDEN`, whatever the scheduler's mask is. -/
theorem checkSurfaceLayout_iff (scene : Scene) (st : AbstractLodScheduler F)
    (surface : SurfacePtr) :
    (checkSurfaceLayout scene st surface = true ↔
      ((scene.targetLayout surface &&& scene.surfaceLayoutMask surface) &&& scene.HIDDEN = 0 ∧
        st.layoutMask &&& (scene.targetLayout surface &&& scene.surfaceLayoutMask surface) ≠ 0)) ∧
    ((scene.targetLayout surface &&& scene.surfaceLayoutMask surface) &&& scene.HIDDEN ≠ 0 →
      checkSurfaceLayout scene st surface = false) := by
  unfold checkSurfaceLayout
  by_cases h : (scene.targetLayout surface &&& scene.surfaceLayoutMask surface) &&& scene.HIDDEN = 0
  · simp [h]
  · simp [h]

/-- Witness for C2: surface 63 on a node of layout 33 keeps the `HIDDEN` bit 32
after masking, so it is not visible even for a scheduler mask of 1. -/
theorem checkSurfaceLayout_iff_witness :
    (exampleScene.targetLayout 63 &&& exampleScene.surfaceLayoutMask 63) &&& exampleScene.HIDDEN ≠ 0 ∧
      checkSurfaceLayout exampleScene (emptyScheduler none) 63 = false :=
  ⟨by decide, (checkSurfaceLayout_iff exampleScene (emptyScheduler none) 63).2 (by decide)⟩

/-! ## Lemmas on the update loop -/

theorem LodInfo.equals_iff [DecidableEq F] (a b : LodInfo F) : a.equals b = true ↔ a = b := by
  cases a; cases b
  simp [LodInfo.equals]

theorem lodInfoChanged_provider [DecidableEq F] (r : ResourceInfo F) (prev new : LodInfo F)
    (e : Event F) (he : e ∈ lodInfoChanged r prev new) : e.provider? = some r.data := by
  unfold lodInfoChanged at he
  rcases List.mem_append.1 he with h | h
  · split at h
    · rw [List.mem_singleton.1 h]; rfl
    · exact absurd h (List.not_mem_nil e)
  · split at h
    · rw [List.mem_singleton.1 h]; rfl
    · exact absurd h (List.not_mem_nil e)

theorem updateResource_eq [DecidableEq F] (policy : ResourceInfo F → F → LodInfo F)
    (time : F) (r : ResourceInfo F) :
    updateResource policy time r =
      if r.lodRequirementIsInvalid = false then (r, [])
      else if policy r.cleared time = r.lodInfo then (r.cleared, [Event.lodInfo r.cleared time])
      else ({ r.cleared with lodInfo := policy r.cleared time },
        [Event.lodInfo r.cleared time,
          Event.lodInfoChanged { r.cleared with lodInfo := policy r.cleared time } r.lodInfo
            (policy r.cleared time)]
          ++ lodInfoChanged { r.cleared with lodInfo := policy r.cleared time } r.lodInfo
            (policy r.cleared time)) := by
  unfold updateResource
  by_cases hd : r.lodRequirementIsInvalid = false
  · simp [hd]
  · have hd1 : r.lodRequirementIsInvalid = true := by simpa using hd
    by_cases heq : policy r.cleared time = r.lodInfo
    · have : r.lodInfo.equals (policy r.cleared time) = true :=
        (LodInfo.equals_iff _ _).2 heq.symm
      simp only [ResourceInfo.cleared] at this heq
      simp [hd1, ResourceInfo.cleared, heq, (LodInfo.equals_iff r.lodInfo r.lodInfo).2 rfl]
    · have : ¬ r.lodInfo.equals (policy r.cleared time) = true :=
        fun h => heq ((LodInfo.equals_iff _ _).1 h).symm
      simp only [ResourceInfo.cleared] at this heq
      simp [hd1, ResourceInfo.cleared, this, heq]

theorem updateResource_provider [DecidableEq F] (policy : ResourceInfo F → F → LodInfo F)
    (time : F) (r : ResourceInfo F) (e : Event F)
    (he : e ∈ (updateResource policy time r).2) : e.provider? = some r.data := by
  rw [updateResource_eq] at he
  split at he
  · exact absurd he (List.not_mem_nil e)
  · split at he
    · rw [List.mem_singleton.1 he]; rfl
    · simp only [List.cons_append, List.nil_append, List.mem_cons] at he
      rcases he with h | h | h
      · rw [h]; rfl
      · rw [h]; rfl
      · exact lodInfoChanged_provider _ _ _ e h

theorem updateResources_provider [DecidableEq F] (policy : ResourceInfo F → F → LodInfo F)
    (time : F) (l : List (String × ResourceInfo F)) (e : Event F)
    (he : e ∈ (updateResources policy time l).2) :
    ∃ d ∈ l.map (fun x => x.2.data), e.provider? = some d := by
  induction l with
  | nil => exact absurd he (List.not_mem_nil e)
  | cons x rest ih =>
      obtain ⟨k, r⟩ := x
      simp only [updateResources] at he
      rcases List.mem_append.1 he with h | h
      · exact ⟨r.data, by simp, updateResource_provider policy time r e h⟩
      · obtain ⟨d, hd, hp⟩ := ih h
        exact ⟨d, by simp only [List.map_cons, List.mem_cons]; exact Or.inr hd, hp⟩

theorem updateResources_filter [DecidableEq F] (policy : ResourceInfo F → F → LodInfo F)
    (time : F) (q : Event F → Bool) (uuid : String) (resource : ResourceInfo F)
    (hq : ∀ e, q e = true → e.provider? = some resource.data)
    (l : List (String × ResourceInfo F))
    (hnd : (l.map (fun x => x.2.data)).Nodup) (hmem : (uuid, resource) ∈ l) :
    (updateResources policy time l).2.filter q = (updateResource policy time resource).2.filter q := by
  induction l with
  | nil => exact absurd hmem (List.not_mem_nil _)
  | cons x rest ih =>
      obtain ⟨k, r⟩ := x
      simp only [List.map_cons, List.nodup_cons] at hnd
      simp only [updateResources, List.filter_append]
      rcases List.mem_cons.1 hmem with h | h
      · have hr : r = resource := by injection h with _ h2; exact h2.symm
        subst hr
        have : (updateResources policy time rest).2.filter q = [] := by
          rw [List.filter_eq_nil_iff]
          intro e he hqe
          obtain ⟨d, hd, hp⟩ := updateResources_provider policy time rest e he
          rw [hq e hqe] at hp
          injection hp with hp
          exact hnd.1 (hp ▸ hd)
        rw [this, List.append_nil]
      · have hne : r.data ≠ resource.data := by
          intro heq
          apply hnd.1
          rw [heq]
          exact List.mem_map.2 ⟨(uuid, resource), h, rfl⟩
        have : (updateResource policy time r).2.filter q = [] := by
          rw [List.filter_eq_nil_iff]
          intro e he hqe
          have hp := updateResource_provider policy time r e he
          rw [hq e hqe] at hp
          injection hp with hp
          exact hne hp.symm
        rw [this, List.nil_append]
        exact ih hnd.2 h

theorem collectSurfaces_filter (st : AbstractLodScheduler F) (q : Event F → Bool)
    (hq : ∀ e, q e = true → e.provider? ≠ none) : (collectSurfaces st).2.filter q = [] := by
  rw [List.filter_eq_nil_iff, collectSurfaces_events]
  intro e he hqe
  apply hq e hqe
  rcases List.mem_append.1 he with h | h
  · obtain ⟨s, _, hs⟩ := List.mem_map.1 h
    rw [← hs]; rfl
  · split at h
    · obtain ⟨s, _, hs⟩ := List.mem_map.1 h
      rw [← hs]; rfl
    · exact absurd h (List.not_mem_nil e)

theorem collectSurfaces_resources (st : AbstractLodScheduler F) :
    (collectSurfaces st).1.resources = st.resources := by
  unfold collectSurfaces
  by_cases h : st.masterLodScheduler = none <;> simp [h]

theorem updateResources_fst [DecidableEq F] (policy : ResourceInfo F → F → LodInfo F)
    (time : F) (l : List (String × ResourceInfo F)) :
    (updateResources policy time l).1 =
      l.map (fun x => (x.1, (updateResource policy time x.2).1)) := by
  induction l with
  | nil => rfl
  | cons x rest ih =>
      obtain ⟨k, r⟩ := x
      simp [updateResources, ih]

theorem mapFind_map {V : Type} (f : V → V) (key : String) (l : List (String × V)) :
    mapFind key (l.map (fun x => (x.1, f x.2))) = (mapFind key l).map f := by
  induction l with
  | nil => rfl
  | cons x rest ih =>
      obtain ⟨k, v⟩ := x
      by_cases h : k = key <;> simp [mapFind, h, ih]

theorem mapFind_of_mem {V : Type} (key : String) (v : V) (l : List (String × V))
    (hnd : (l.map Prod.fst).Nodup) (hmem : (key, v) ∈ l) : mapFind key l = some v := by
  induction l with
  | nil => exact absurd hmem (List.not_mem_nil _)
  | cons x rest ih =>
      obtain ⟨k, w⟩ := x
      simp only [List.map_cons, List.nodup_cons] at hnd
      rcases List.mem_cons.1 hmem with h | h
      · injection h with h1 h2
        simp [mapFind, h1, h2]
      · have hne : k ≠ key := by
          intro heq
          apply hnd.1
          rw [heq]
          exact List.mem_map.2 ⟨(key, v), h, rfl⟩
        simp [mapFind, hne, ih hnd.2 h]

theorem RegistryOk.data_nodup {st : AbstractLodScheduler F} (h : RegistryOk st) :
    (st.resources.map (fun x => x.2.data)).Nodup := by
  obtain ⟨hk, hu⟩ := h
  have heq : st.resources.map Prod.fst =
      (st.resources.map (fun x => x.2.data)).map Provider.uuid := by
    rw [List.map_map]
    exact List.map_congr_left (fun e he => hu e he)
  rw [heq] at hk
  exact List.Nodup.of_map _ hk

theorem updated_filter [DecidableEq F] (policy : ResourceInfo F → F → LodInfo F)
    (time : F) (st : AbstractLodScheduler F) (hreg : RegistryOk st)
    (q : Event F → Bool) (uuid : String) (resource : ResourceInfo F)
    (hq : ∀ e, q e = true → e.provider? = some resource.data)
    (hmem : (uuid, resource) ∈ st.resources) :
    (updated policy time st).2.filter q = (updateResource policy time resource).2.filter q := by
  simp only [updated, List.filter_append]
  rw [collectSurfaces_filter st q (fun e he => by rw [hq e he]; simp), List.nil_append,
    collectSurfaces_resources]
  exact updateResources_filter policy time q uuid resource hq st.resources hreg.data_nodup hmem

theorem updated_mapFind [DecidableEq F] (policy : ResourceInfo F → F → LodInfo F)
    (time : F) (st : AbstractLodScheduler F) (hreg : RegistryOk st)
    (uuid : String) (resource : ResourceInfo F) (hmem : (uuid, resource) ∈ st.resources) :
    mapFind uuid (updated policy time st).1.resources =
      some (updateResource policy time resource).1 := by
  simp only [updated]
  rw [collectSurfaces_resources, updateResources_fst,
    mapFind_map (fun r => (updateResource policy time r).1), mapFind_of_mem uuid resource _ hreg.1 hmem]
  rfl

theorem isLodInfoChangedOf_provider (p : Provider) (e : Event F)
    (h : Event.isLodInfoChangedOf p e = true) : e.provider? = some p := by
  cases e <;> simp_all [Event.isLodInfoChangedOf, Event.provider?]

theorem isSetOf_provider (p : Provider) (e : Event F)
    (h : Event.isSetOf p e = true) : e.provider? = some p := by
  cases e <;> simp_all [Event.isSetOf, Event.provider?]

theorem lodInfoChanged_filter_hook [DecidableEq F] (p : Provider) (r : ResourceInfo F)
    (prev new : LodInfo F) :
    (lodInfoChanged r prev new).filter (Event.isLodInfoChangedOf p) = [] := by
  rw [List.filter_eq_nil_iff]
  intro e he
  unfold lodInfoChanged at he
  rcases List.mem_append.1 he with h | h
  · split at h
    · rw [List.mem_singleton.1 h]; simp [Event.isLodInfoChangedOf]
    · exact absurd h (List.not_mem_nil e)
  · split at h
    · rw [List.mem_singleton.1 h]; simp [Event.isLodInfoChangedOf]
    · exact absurd h (List.not_mem_nil e)

/-- C3: in one pass of `updated` over a registry, the `lodInfoChanged` hook is
invoked for a registered resource if and only if the resource was dirty and the
`LodInfo` the policy computes differs from the stored one; when it fires it is
invoked once, with the resource, the previously stored `LodInfo` and the new
one, and the new one is stored; otherwise the stored `LodInfo` is unchanged and
there is neither a hook call nor a store write for the resource. -/
theorem updated_lodInfoChanged_iff [DecidableEq F] (policy : ResourceInfo F → F → LodInfo F)
    (time : F) (st : AbstractLodScheduler F) (hreg : RegistryOk st)
    (uuid : String) (resource : ResourceInfo F) (hmem : (uuid, resource) ∈ st.resources) :
    ((updated policy time st).2.filter (Event.isLodInfoChangedOf resource.data) ≠ [] ↔
      (resource.lodRequirementIsInvalid = true ∧
        policy resource.cleared time ≠ resource.lodInfo)) ∧
    ((resource.lodRequirementIsInvalid = true ∧
        policy resource.cleared time ≠ resource.lodInfo) →
      (updated policy time st).2.filter (Event.isLodInfoChangedOf resource.data) =
        [Event.lodInfoChanged { resource.cleared with lodInfo := policy resource.cleared time }
          resource.lodInfo (policy resource.cleared time)] ∧
      mapFind uuid (updated policy time st).1.resources =
        some { resource.cleared with lodInfo := policy resource.cleared time }) ∧
    (¬ (resource.lodRequirementIsInvalid = true ∧
        policy resource.cleared time ≠ resource.lodInfo) →
      (updated policy time st).2.filter (Event.isLodInfoChangedOf resource.data) = [] ∧
      (updated policy time st).2.filter (Event.isSetOf resource.data) = [] ∧
      mapFind uuid (updated policy time st).1.resources = some resource.cleared) := by
  rw [updated_filter policy time st hreg _ uuid resource
      (isLodInfoChangedOf_provider resource.data) hmem,
    updated_filter policy time st hreg _ uuid resource (isSetOf_provider resource.data) hmem,
    updated_mapFind policy time st hreg uuid resource hmem, updateResource_eq]
  by_cases hd : resource.lodRequirementIsInvalid = false
  · have hc : resource.cleared = resource := by
      cases resource
      simp only [ResourceInfo.cleared] at hd ⊢
      simp [hd]
    simp [hd, hc]
  · have hd1 : resource.lodRequirementIsInvalid = true := by simpa using hd
    by_cases heq : policy resource.cleared time = resource.lodInfo
    · rw [if_neg hd, if_pos heq]
      simp [hd1, heq, Event.isLodInfoChangedOf, Event.isSetOf]
    · rw [if_neg hd, if_neg heq]
      have hdata : resource.cleared.data = resource.data := rfl
      simp [hd1, heq, Event.isLodInfoChangedOf, Event.isSetOf, lodInfoChanged_filter_hook,
        List.filter_cons, hdata]

/-- Witness for C3, the spec's scenario: the resource stored with
`requiredLod = 0` is dirty and the policy returns `requiredLod = 2`. -/
theorem updated_lodInfoChanged_iff_witness :
    RegistryOk (exampleScheduler none true) ∧
    ("r", exampleResource) ∈ (exampleScheduler none true).resources ∧
    ((updated examplePolicy 5 (exampleScheduler none true)).2.filter
        (Event.isLodInfoChangedOf exampleResource.data) =
      [Event.lodInfoChanged
        { exampleResource.cleared with lodInfo := examplePolicy exampleResource.cleared 5 }
        exampleResource.lodInfo (examplePolicy exampleResource.cleared 5)] ∧
    mapFind "r" (updated examplePolicy 5 (exampleScheduler none true)).1.resources =
      some { exampleResource.cleared with lodInfo := examplePolicy exampleResource.cleared 5 }) :=
  ⟨by decide, by decide,
    (updated_lodInfoChanged_iff examplePolicy 5 (exampleScheduler none true) (by decide)
      "r" exampleResource (by decide)).2.1 ⟨rfl, by decide⟩⟩

/-- C4: the default `lodInfoChanged` writes `requiredLod` (with the new value)
if and only if the required LOD changed, writes `priority` (with the new value)
if and only if the priority changed, and writes nothing else. -/
theorem lodInfoChanged_writes [DecidableEq F] (resource : ResourceInfo F)
    (previousLodInfo lodInfo : LodInfo F) :
    (Event.set resource.data "requiredLod" (PropertyValue.int lodInfo.requiredLod) ∈
        lodInfoChanged resource previousLodInfo lodInfo ↔
      previousLodInfo.requiredLod ≠ lodInfo.requiredLod) ∧
    (Event.set resource.data "priority" (PropertyValue.float lodInfo.priority) ∈
        lodInfoChanged resource previousLodInfo lodInfo ↔
      previousLodInfo.priority ≠ lodInfo.priority) ∧
    (∀ e ∈ lodInfoChanged resource previousLodInfo lodInfo,
      e = Event.set resource.data "requiredLod" (PropertyValue.int lodInfo.requiredLod) ∨
      e = Event.set resource.data "priority" (PropertyValue.float lodInfo.priority)) ∧
    (lodInfoChanged resource previousLodInfo lodInfo).Nodup := by
  unfold lodInfoChanged
  by_cases h1 : previousLodInfo.requiredLod = lodInfo.requiredLod <;>
    by_cases h2 : previousLodInfo.priority = lodInfo.priority <;>
    simp [h1, h2]

/-! ## Lemmas on whole update cycles -/

theorem lodInfoChanged_filter_lodInfo [DecidableEq F] (r : ResourceInfo F)
    (prev new : LodInfo F) :
    (lodInfoChanged r prev new).filter Event.isLodInfo = [] := by
  rw [List.filter_eq_nil_iff]
  intro e he
  unfold lodInfoChanged at he
  rcases List.mem_append.1 he with h | h
  · split at h
    · rw [List.mem_singleton.1 h]; simp [Event.isLodInfo]
    · exact absurd h (List.not_mem_nil e)
  · split at h
    · rw [List.mem_singleton.1 h]; simp [Event.isLodInfo]
    · exact absurd h (List.not_mem_nil e)

theorem updateResource_filter_lodInfo [DecidableEq F]
    (policy : ResourceInfo F → F → LodInfo F) (time : F) (r : ResourceInfo F) :
    (updateResource policy time r).2.filter Event.isLodInfo =
      if r.lodRequirementIsInvalid = false then [] else [Event.lodInfo r.cleared time] := by
  rw [updateResource_eq]
  by_cases hd : r.lodRequirementIsInvalid = false
  · rw [if_pos hd, if_pos hd]; rfl
  · rw [if_neg hd, if_neg hd]
    by_cases heq : policy r.cleared time = r.lodInfo
    · rw [if_pos heq]; simp [Event.isLodInfo]
    · rw [if_neg heq]
      simp [Event.isLodInfo, List.filter_cons, lodInfoChanged_filter_lodInfo]

theorem updateResources_invalidated [DecidableEq F]
    (policy : ResourceInfo F → F → LodInfo F) (time : F) (l : List (String × ResourceInfo F)) :
    (updateResources policy time
        (l.map (fun e => (e.1, { e.2 with lodRequirementIsInvalid := true })))).2.filter
        Event.isLodInfo =
      l.map (fun e => Event.lodInfo e.2.cleared time) := by
  induction l with
  | nil => rfl
  | cons x rest ih =>
      obtain ⟨k, r⟩ := x
      simp only [List.map_cons, updateResources, List.filter_append, ih,
        updateResource_filter_lodInfo]
      simp [ResourceInfo.cleared]

theorem provider_some_phase (e : Event F) (d : Provider) (h : e.provider? = some d) :
    e.phase = 2 := by
  cases e <;> simp_all [Event.provider?, Event.phase]

theorem updateResources_phase [DecidableEq F] (policy : ResourceInfo F → F → LodInfo F)
    (time : F) (l : List (String × ResourceInfo F)) (e : Event F)
    (he : e ∈ (updateResources policy time l).2) : e.phase = 2 := by
  obtain ⟨d, _, hp⟩ := updateResources_provider policy time l e he
  exact provider_some_phase e d hp

theorem updateResources_filter_phase [DecidableEq F] (policy : ResourceInfo F → F → LodInfo F)
    (time : F) (l : List (String × ResourceInfo F)) (q : Event F → Bool)
    (hq : ∀ e, q e = true → e.phase ≠ 2) :
    (updateResources policy time l).2.filter q = [] := by
  rw [List.filter_eq_nil_iff]
  intro e he hqe
  exact hq e hqe (updateResources_phase policy time l e he)

theorem updated_master [DecidableEq F] (policy : ResourceInfo F → F → LodInfo F)
    (time : F) (st : AbstractLodScheduler F) :
    (updated policy time st).1.masterLodScheduler = st.masterLodScheduler := by
  unfold updated collectSurfaces
  by_cases h : st.masterLodScheduler = none <;> simp [h]

theorem updated_added [DecidableEq F] (policy : ResourceInfo F → F → LodInfo F)
    (time : F) (st : AbstractLodScheduler F) :
    (updated policy time st).1.addedSurfaces = (collectSurfaces st).1.addedSurfaces := rfl

theorem updated_removed [DecidableEq F] (policy : ResourceInfo F → F → LodInfo F)
    (time : F) (st : AbstractLodScheduler F) :
    (updated policy time st).1.removedSurfaces = (collectSurfaces st).1.removedSurfaces := rfl

theorem updated_events [DecidableEq F] (policy : ResourceInfo F → F → LodInfo F)
    (time : F) (st : AbstractLodScheduler F) :
    (updated policy time st).2 =
      st.removedSurfaces.map Event.surfaceRemoved ++
        ((if st.masterLodScheduler ≠ none then st.addedSurfaces.map Event.surfaceAdded else []) ++
          (updateResources policy time st.resources).2) := by
  simp only [updated]
  rw [collectSurfaces_events, collectSurfaces_resources, List.append_assoc]

theorem filter_added_map_removed (l : List SurfacePtr) :
    (l.map (Event.surfaceRemoved : SurfacePtr → Event F)).filter Event.isSurfaceAdded = [] := by
  induction l with
  | nil => rfl
  | cons x rest ih => simp [Event.isSurfaceAdded]

theorem filter_added_map_added (l : List SurfacePtr) :
    (l.map (Event.surfaceAdded : SurfacePtr → Event F)).filter Event.isSurfaceAdded =
      l.map Event.surfaceAdded := by
  induction l with
  | nil => rfl
  | cons x rest ih => simp [Event.isSurfaceAdded]

theorem filter_removed_map_removed (l : List SurfacePtr) :
    (l.map (Event.surfaceRemoved : SurfacePtr → Event F)).filter Event.isSurfaceRemoved =
      l.map Event.surfaceRemoved := by
  induction l with
  | nil => rfl
  | cons x rest ih => simp [Event.isSurfaceRemoved]

theorem filter_removed_map_added (l : List SurfacePtr) :
    (l.map (Event.surfaceAdded : SurfacePtr → Event F)).filter Event.isSurfaceRemoved = [] := by
  induction l with
  | nil => rfl
  | cons x rest ih => simp [Event.isSurfaceRemoved]

/-- C5: with the scheduler disabled, the tick `frameBeginHandler(t)` calls no
hook at all (in particular not the policy) and changes nothing but the recorded
frame time; `forceUpdate()` in a disabled state calls the policy exactly once
per registered resource, in registry order, with the recorded frame time, which
after the tick is `t`. -/
theorem disabled_tick_forceUpdate [DecidableEq F] (policy : ResourceInfo F → F → LodInfo F)
    (t : F) (st : AbstractLodScheduler F) (hdisabled : st.enabled = false) :
    frameBeginHandler policy t st = ({ st with frameTime := t }, []) ∧
    (forceUpdate policy st).2.filter Event.isLodInfo =
      st.resources.map (fun e => Event.lodInfo e.2.cleared st.frameTime) ∧
    (forceUpdate policy (frameBeginHandler policy t st).1).2.filter Event.isLodInfo =
      st.resources.map (fun e => Event.lodInfo e.2.cleared t) := by
  have htick : frameBeginHandler policy t st = ({ st with frameTime := t }, []) := by
    simp [frameBeginHandler, hdisabled]
  have hforce : ∀ s : AbstractLodScheduler F,
      (forceUpdate policy s).2.filter Event.isLodInfo =
        s.resources.map (fun e => Event.lodInfo e.2.cleared s.frameTime) := by
    intro s
    simp only [forceUpdate, updated, List.filter_append]
    rw [collectSurfaces_filter _ Event.isLodInfo (fun e he => by
        cases e <;> simp_all [Event.isLodInfo, Event.provider?]),
      List.nil_append, collectSurfaces_resources]
    exact updateResources_invalidated policy s.frameTime s.resources
  refine ⟨htick, hforce st, ?_⟩
  rw [htick]
  exact hforce _

/-- Witness for C5: the example scheduler, disabled, ticked at time 7. -/
theorem disabled_tick_forceUpdate_witness :
    (exampleScheduler none false).enabled = false ∧
    (forceUpdate examplePolicy
        (frameBeginHandler examplePolicy 7 (exampleScheduler none false)).1).2.filter
        Event.isLodInfo =
      (exampleScheduler none false).resources.map (fun e => Event.lodInfo e.2.cleared 7) :=
  ⟨rfl, (disabled_tick_forceUpdate examplePolicy 7 (exampleScheduler none false) rfl).2.2⟩

/-- C6: with no master scheduler bound, any number of update cycles (in
particular every n ≥ 1) never invokes the `surfaceAdded` hook and leaves the
add queue exactly as it was: same surfaces, same order. -/
theorem no_master_cycles_keep_added [DecidableEq F] (policy : ResourceInfo F → F → LodInfo F)
    (times : List F) (st : AbstractLodScheduler F) (hmaster : st.masterLodScheduler = none) :
    (updateCycles policy times st).2.filter Event.isSurfaceAdded = [] ∧
    (updateCycles policy times st).1.addedSurfaces = st.addedSurfaces := by
  induction times generalizing st with
  | nil => exact ⟨rfl, rfl⟩
  | cons time rest ih =>
      have hm : (updated policy time st).1.masterLodScheduler = none := by
        rw [updated_master]; exact hmaster
      have ha : (updated policy time st).1.addedSurfaces = st.addedSurfaces := by
        rw [updated_added, collectSurfaces_added]; simp [hmaster]
      have he : (updated policy time st).2.filter Event.isSurfaceAdded = [] := by
        rw [updated_events, List.filter_append, List.filter_append,
          updateResources_filter_phase policy time st.resources Event.isSurfaceAdded (fun e h => by
            cases e <;> simp_all [Event.isSurfaceAdded, Event.phase])]
        simp [hmaster, filter_added_map_removed]
      obtain ⟨ih1, ih2⟩ := ih (updated policy time st).1 hm
      simp only [updateCycles, List.filter_append]
      exact ⟨by rw [he, ih1]; rfl, by rw [ih2, ha]⟩

/-- Witness for C6, the spec's scenario: five ticks with no master bound leave
surfaces 3 and 63 in the add queue. -/
theorem no_master_cycles_keep_added_witness :
    (exampleScheduler none true).masterLodScheduler = none ∧
    (updateCycles examplePolicy [1, 2, 3, 4, 5] (exampleScheduler none true)).2.filter
        Event.isSurfaceAdded = [] ∧
    (updateCycles examplePolicy [1, 2, 3, 4, 5] (exampleScheduler none true)).1.addedSurfaces =
      [3, 63] :=
  ⟨rfl, no_master_cycles_keep_added examplePolicy [1, 2, 3, 4, 5] (exampleScheduler none true) rfl⟩

/-- C7: with a master scheduler bound, one update cycle invokes `surfaceAdded`
once per entry of the add queue, in queue order, invokes `surfaceRemoved` once
per entry of the remove queue, in queue order, and leaves both queues empty. -/
theorem master_cycle_flushes [DecidableEq F] (policy : ResourceInfo F → F → LodInfo F)
    (time : F) (st : AbstractLodScheduler F) (hmaster : st.masterLodScheduler ≠ none) :
    (updated policy time st).2.filter Event.isSurfaceAdded =
      st.addedSurfaces.map Event.surfaceAdded ∧
    (updated policy time st).2.filter Event.isSurfaceRemoved =
      st.removedSurfaces.map Event.surfaceRemoved ∧
    (updated policy time st).1.addedSurfaces = [] ∧
    (updated policy time st).1.removedSurfaces = [] := by
  refine ⟨?_, ?_, ?_, ?_⟩
  · rw [updated_events, List.filter_append, List.filter_append,
      updateResources_filter_phase policy time st.resources Event.isSurfaceAdded (fun e h => by
        cases e <;> simp_all [Event.isSurfaceAdded, Event.phase])]
    simp [hmaster, filter_added_map_removed, filter_added_map_added]
  · rw [updated_events, List.filter_append, List.filter_append,
      updateResources_filter_phase policy time st.resources Event.isSurfaceRemoved (fun e h => by
        cases e <;> simp_all [Event.isSurfaceRemoved, Event.phase])]
    simp [hmaster, filter_removed_map_removed, filter_removed_map_added]
  · rw [updated_added, collectSurfaces_added]; simp [hmaster]
  · rw [updated_removed, collectSurfaces_removed]

/-- Witness for C7: the example scheduler with master 9 bound flushes surfaces
3 and 63 in that order and surface 4 from the remove queue. -/
theorem master_cycle_flushes_witness :
    (exampleScheduler (some 9) true).masterLodScheduler ≠ none ∧
    (updated examplePolicy 1 (exampleScheduler (some 9) true)).2.filter Event.isSurfaceAdded =
      [Event.surfaceAdded 3, Event.surfaceAdded 63] ∧
    (updated examplePolicy 1 (exampleScheduler (some 9) true)).2.filter Event.isSurfaceRemoved =
      [Event.surfaceRemoved 4] ∧
    (updated examplePolicy 1 (exampleScheduler (some 9) true)).1.addedSurfaces = [] ∧
    (updated examplePolicy 1 (exampleScheduler (some 9) true)).1.removedSurfaces = [] :=
  ⟨by decide, master_cycle_flushes examplePolicy 1 (exampleScheduler (some 9) true) (by decide)⟩

/-- C8: in the sequence of calls one `updated` makes, whenever a call comes
before another its phase is not later: every `surfaceRemoved` (phase 0) call
precedes every `surfaceAdded` (phase 1) call, and both precede every policy call
`lodInfo` and every `lodInfoChanged` call (phase 2). -/
theorem updated_call_order [DecidableEq F] (policy : ResourceInfo F → F → LodInfo F)
    (time : F) (st : AbstractLodScheduler F) :
    (updated policy time st).2.Pairwise (fun a b => a.phase ≤ b.phase) := by
  rw [updated_events]
  have h0 : ∀ e ∈ st.removedSurfaces.map (Event.surfaceRemoved : SurfacePtr → Event F),
      e.phase = 0 := by
    intro e he
    obtain ⟨s, _, hs⟩ := List.mem_map.1 he
    rw [← hs]; rfl
  have h1 : ∀ e ∈ (if st.masterLodScheduler ≠ none
      then st.addedSurfaces.map (Event.surfaceAdded : SurfacePtr → Event F) else []),
      e.phase = 1 := by
    intro e he
    split at he
    · obtain ⟨s, _, hs⟩ := List.mem_map.1 he
      rw [← hs]; rfl
    · exact absurd he (List.not_mem_nil e)
  have h2 := updateResources_phase policy time st.resources
  have hconst : ∀ (n : Nat) (l : List (Event F)), (∀ e ∈ l, e.phase = n) →
      l.Pairwise (fun a b => a.phase ≤ b.phase) := by
    intro n l hl
    induction l with
    | nil => exact List.Pairwise.nil
    | cons x rest ih =>
        refine List.Pairwise.cons ?_ (ih (fun e he => hl e (List.mem_cons_of_mem x he)))
        intro b hb
        rw [hl x (List.mem_cons_self x rest), hl b (List.mem_cons_of_mem x hb)]
  refine List.pairwise_append.2 ⟨hconst 0 _ h0, List.pairwise_append.2 ⟨hconst 1 _ h1,
    hconst 2 _ h2, ?_⟩, ?_⟩
  · intro a ha b hb
    rw [h1 a ha, h2 b hb]
    decide
  · intro a ha b hb
    rw [h0 a ha]
    exact Nat.zero_le _

/-! ## Lemmas on the registry -/

theorem mapInsert_of_mapFind {V : Type} (key : String) (w v : V) (l : List (String × V))
    (h : mapFind key l = some v) : mapInsert key w l = l := by
  induction l with
  | nil => simp [mapFind] at h
  | cons x rest ih =>
      obtain ⟨k, u⟩ := x
      by_cases hk : k = key
      · simp [mapInsert, hk]
      · simp only [mapFind, hk, if_false] at h
        simp [mapInsert, hk, ih h]

theorem mapModify_keys {V : Type} (key : String) (f : V → V) (l : List (String × V)) :
    (mapModify key f l).map Prod.fst = l.map Prod.fst := by
  induction l with
  | nil => rfl
  | cons x rest ih =>
      obtain ⟨k, u⟩ := x
      by_cases hk : k = key <;> simp [mapModify, hk, ih]

theorem mapFind_mapModify {V : Type} (key : String) (f : V → V) (l : List (String × V))
    (k : String) :
    mapFind k (mapModify key f l) =
      if k = key then (mapFind k l).map f else mapFind k l := by
  induction l with
  | nil => simp [mapModify, mapFind]
  | cons x rest ih =>
      obtain ⟨k', u⟩ := x
      by_cases hk : k' = key
      · by_cases hkk : k = key
        · simp [mapModify, mapFind, hk, hkk]
        · have : ¬ key = k := fun h => hkk h.symm
          simp [mapModify, mapFind, hk, hkk, this]
      · by_cases hkk : k' = k
        · subst hkk
          simp [mapModify, mapFind, hk]
        · simp only [mapModify, hk, if_false, mapFind, hkk]
          exact ih

/-- C9 as stated fails: registering the example resource again, under the
identifier "r" the registry already holds, changes the registry, because the
entry's `propertyChangedSlot` is overwritten with a new connection. -/
theorem reregister_changes_registry :
    mapFind exampleResource.data.uuid (exampleScheduler none true).resources =
      some exampleResource ∧
    (registerResource exampleLodInfo0 true exampleResource.data
        (exampleScheduler none true)).1.resources ≠ (exampleScheduler none true).resources ∧
    (registerResource exampleLodInfo0 true exampleResource.data
        (exampleScheduler none true)).2 ≠ some exampleResource := by
  decide

/-- C9 amended: when the registry already holds an entry under the resource's
identifier, `registerResource` inserts nothing: the identifiers are the same,
every entry under another identifier is unchanged, and the existing entry keeps
its resource handle, dirty flag and stored `LodInfo`; but its property-change
subscription is replaced by a new connection to the signal of the existing
entry's own resource.  The returned reference is that existing entry. -/
theorem registerResource_existing (lodInfo0 : LodInfo F) (invalid0 : Bool) (data : Provider)
    (st : AbstractLodScheduler F) (existing : ResourceInfo F)
    (hfound : mapFind data.uuid st.resources = some existing) :
    (registerResource lodInfo0 invalid0 data st).1.resources.map Prod.fst =
      st.resources.map Prod.fst ∧
    (∀ k, k ≠ data.uuid →
      mapFind k (registerResource lodInfo0 invalid0 data st).1.resources =
        mapFind k st.resources) ∧
    mapFind data.uuid (registerResource lodInfo0 invalid0 data st).1.resources =
      some { data := existing.data, lodInfo := existing.lodInfo,
             propertyChangedSlot := some { id := st.nextSlot, source := existing.data },
             lodRequirementIsInvalid := existing.lodRequirementIsInvalid } ∧
    (registerResource lodInfo0 invalid0 data st).2 =
      some { data := existing.data, lodInfo := existing.lodInfo,
             propertyChangedSlot := some { id := st.nextSlot, source := existing.data },
             lodRequirementIsInvalid := existing.lodRequirementIsInvalid } := by
  have hins := mapInsert_of_mapFind data.uuid
    (ResourceInfo.ofData lodInfo0 invalid0 data) existing st.resources hfound
  simp only [registerResource, hins]
  refine ⟨mapModify_keys _ _ _, ?_, ?_, ?_⟩
  · intro k hk
    rw [mapFind_mapModify, if_neg hk]
  · rw [mapFind_mapModify, if_pos rfl, hfound]
    rfl
  · rw [mapFind_mapModify, if_pos rfl, hfound]
    rfl

/-- Witness for the amended C9: the example resource registered a second
time. -/
theorem registerResource_existing_witness :
    mapFind exampleResource.data.uuid (exampleScheduler none true).resources =
      some exampleResource ∧
    mapFind exampleResource.data.uuid
        (registerResource exampleLodInfo0 true exampleResource.data
          (exampleScheduler none true)).1.resources =
      some { data := exampleResource.data, lodInfo := exampleResource.lodInfo,
             propertyChangedSlot := some { id := 4, source := exampleResource.data },
             lodRequirementIsInvalid := exampleResource.lodRequirementIsInvalid } :=
  ⟨by decide,
    (registerResource_existing exampleLodInfo0 true exampleResource.data
      (exampleScheduler none true) exampleResource (by decide)).2.2.1⟩

/-! ## Lemmas on re-evaluating the watched surfaces -/

theorem checkSurfaceLayout_congr (scene : Scene) (st st1 : AbstractLodScheduler F)
    (h : st1.layoutMask = st.layoutMask) (s : SurfacePtr) :
    checkSurfaceLayout scene st1 s = checkSurfaceLayout scene st s := by
  simp [checkSurfaceLayout, h]

theorem surfaceLayoutMaskInvalidated_layoutMask (scene : Scene) (s : SurfacePtr)
    (st : AbstractLodScheduler F) :
    (surfaceLayoutMaskInvalidated scene s st).layoutMask = st.layoutMask := by
  unfold surfaceLayoutMaskInvalidated
  split
  · rfl
  · rfl

theorem surfaceLayoutMaskInvalidated_ok (scene : Scene) (s : SurfacePtr)
    (st : AbstractLodScheduler F) (h : PendingQueuesOk st) :
    PendingQueuesOk (surfaceLayoutMaskInvalidated scene s st) := by
  unfold surfaceLayoutMaskInvalidated
  split
  · exact addPendingSurface_ok s st h
  · exact removePendingSurface_ok s st h

theorem addPendingSurface_routed (s : SurfacePtr) (st : AbstractLodScheduler F)
    (h : PendingQueuesOk st) : Routed true s (addPendingSurface s st) := by
  have hok := addPendingSurface_ok s st h
  have hin : s ∈ (addPendingSurface s st).addedSurfaces := by
    by_cases hs : s ∈ st.addedSurfaces <;> simp [addPendingSurface, hs]
  exact ⟨hin, hok.2.2 s hin⟩

theorem removePendingSurface_routed (s : SurfacePtr) (st : AbstractLodScheduler F)
    (h : PendingQueuesOk st) : Routed false s (removePendingSurface s st) := by
  have hok := removePendingSurface_ok s st h
  have hin : s ∈ (removePendingSurface s st).removedSurfaces := by
    by_cases hs : s ∈ st.removedSurfaces <;> simp [removePendingSurface, hs]
  exact ⟨hin, fun ha => hok.2.2 s ha hin⟩

theorem addPendingSurface_other (s x : SurfacePtr) (st : AbstractLodScheduler F)
    (hne : x ≠ s) :
    (x ∈ (addPendingSurface s st).addedSurfaces ↔ x ∈ st.addedSurfaces) ∧
    (x ∈ (addPendingSurface s st).removedSurfaces ↔ x ∈ st.removedSurfaces) := by
  constructor
  · by_cases hs : s ∈ st.addedSurfaces <;> simp [addPendingSurface, hs, hne]
  · by_cases hs : s ∈ st.removedSurfaces
    · simp [addPendingSurface, hs, List.mem_erase_of_ne hne]
    · simp [addPendingSurface, hs]

theorem removePendingSurface_other (s x : SurfacePtr) (st : AbstractLodScheduler F)
    (hne : x ≠ s) :
    (x ∈ (removePendingSurface s st).addedSurfaces ↔ x ∈ st.addedSurfaces) ∧
    (x ∈ (removePendingSurface s st).removedSurfaces ↔ x ∈ st.removedSurfaces) := by
  constructor
  · by_cases hs : s ∈ st.addedSurfaces
    · simp [removePendingSurface, hs, List.mem_erase_of_ne hne]
    · simp [removePendingSurface, hs]
  · by_cases hs : s ∈ st.removedSurfaces <;> simp [removePendingSurface, hs, hne]

theorem surfaceLayoutMaskInvalidated_other (scene : Scene) (s x : SurfacePtr)
    (st : AbstractLodScheduler F) (hne : x ≠ s) (v : Bool) (h : Routed v x st) :
    Routed v x (surfaceLayoutMaskInvalidated scene s st) := by
  have hmem : (x ∈ (surfaceLayoutMaskInvalidated scene s st).addedSurfaces ↔
        x ∈ st.addedSurfaces) ∧
      (x ∈ (surfaceLayoutMaskInvalidated scene s st).removedSurfaces ↔
        x ∈ st.removedSurfaces) := by
    unfold surfaceLayoutMaskInvalidated
    split
    · exact addPendingSurface_other s x st hne
    · exact removePendingSurface_other s x st hne
  unfold Routed at h ⊢
  rw [hmem.1, hmem.2]
  exact h

theorem surfaceLayoutMaskInvalidated_routed (scene : Scene) (s : SurfacePtr)
    (st : AbstractLodScheduler F) (h : PendingQueuesOk st) :
    Routed (checkSurfaceLayout scene st s) s (surfaceLayoutMaskInvalidated scene s st) := by
  unfold surfaceLayoutMaskInvalidated
  by_cases hv : checkSurfaceLayout scene st s = true
  · rw [if_pos hv, hv]
    exact addPendingSurface_routed s st h
  · rw [if_neg hv]
    have hf : checkSurfaceLayout scene st s = false := by simpa using hv
    rw [hf]
    exact removePendingSurface_routed s st h

theorem foldl_invalidated (scene : Scene) (l : List (SurfacePtr × Nat))
    (st : AbstractLodScheduler F) (hok : PendingQueuesOk st) (x : SurfacePtr)
    (hx : x ∈ l.map Prod.fst ∨ Routed (checkSurfaceLayout scene st x) x st) :
    (l.foldl (fun acc surfaceEntry => surfaceLayoutMaskInvalidated scene surfaceEntry.1 acc)
        st).layoutMask = st.layoutMask ∧
    Routed (checkSurfaceLayout scene st x) x
      (l.foldl (fun acc surfaceEntry => surfaceLayoutMaskInvalidated scene surfaceEntry.1 acc)
        st) := by
  induction l generalizing st with
  | nil =>
      rcases hx with h | h
      · exact absurd h (List.not_mem_nil x)
      · exact ⟨rfl, h⟩
  | cons e rest ih =>
      have hmask := surfaceLayoutMaskInvalidated_layoutMask scene e.1 st
      have hvis := checkSurfaceLayout_congr scene st _ hmask x
      have hstep : Routed (checkSurfaceLayout scene st x) x
          (surfaceLayoutMaskInvalidated scene e.1 st) ∨ x ∈ rest.map Prod.fst := by
        by_cases hxe : x = e.1
        · left
          rw [hxe]
          exact surfaceLayoutMaskInvalidated_routed scene e.1 st hok
        · rcases hx with h | h
          · right
            simp only [List.map_cons, List.mem_cons] at h
            rcases h with h | h
            · exact absurd h hxe
            · exact h
          · left
            exact surfaceLayoutMaskInvalidated_other scene e.1 x st hxe _ h
      have hnext := ih (surfaceLayoutMaskInvalidated scene e.1 st)
        (surfaceLayoutMaskInvalidated_ok scene e.1 st hok)
        (by
          rw [hvis]
          rcases hstep with h | h
          · exact Or.inr h
          · exact Or.inl h)
      rw [hvis, hmask] at hnext
      exact hnext

/-- C10: after `layoutMask(v)`, in a scheduler whose queues hold no surface
twice and none in both (the invariant of C1), the scheduler's mask is `v` and
every watched surface that is visible under it is in the add queue and not in
the remove queue, and every other watched surface is in the remove queue and
not in the add queue. -/
theorem layoutMask_routes (scene : Scene) (value : Layout) (st : AbstractLodScheduler F)
    (hok : PendingQueuesOk st) (surface : SurfacePtr)
    (hwatched : surface ∈ st.surfaceLayoutmaskChangedSlots.map Prod.fst) :
    (layoutMask scene value st).layoutMask = value ∧
    (checkSurfaceLayout scene (layoutMask scene value st) surface = true →
      surface ∈ (layoutMask scene value st).addedSurfaces ∧
      surface ∉ (layoutMask scene value st).removedSurfaces) ∧
    (checkSurfaceLayout scene (layoutMask scene value st) surface = false →
      surface ∈ (layoutMask scene value st).removedSurfaces ∧
      surface ∉ (layoutMask scene value st).addedSurfaces) := by
  have h := foldl_invalidated scene st.surfaceLayoutmaskChangedSlots
    { st with layoutMask := value } hok surface (Or.inl hwatched)
  have hmask : (layoutMask scene value st).layoutMask = value := h.1
  have hvis := checkSurfaceLayout_congr scene { st with layoutMask := value }
    (layoutMask scene value st) hmask surface
  have hr : Routed (checkSurfaceLayout scene (layoutMask scene value st) surface) surface
      (layoutMask scene value st) := by
    rw [hvis]
    exact h.2
  refine ⟨hmask, ?_, ?_⟩
  · intro hv
    rw [hv] at hr
    exact hr
  · intro hv
    rw [hv] at hr
    exact hr

/-- Witness for C10: in the example scheduler surface 1 (layout 33 masked by 1,
no `HIDDEN` bit) is visible under mask 1 and surface 63 (masked layout 33, with
the `HIDDEN` bit 32) is not. -/
theorem layoutMask_routes_witness :
    PendingQueuesOk (exampleScheduler none true) ∧
    (63 : SurfacePtr) ∈ (exampleScheduler none true).surfaceLayoutmaskChangedSlots.map Prod.fst ∧
    checkSurfaceLayout exampleScene (layoutMask exampleScene 1 (exampleScheduler none true)) 63
      = false ∧
    ((63 : SurfacePtr) ∈ (layoutMask exampleScene 1 (exampleScheduler none true)).removedSurfaces ∧
      (63 : SurfacePtr) ∉ (layoutMask exampleScene 1 (exampleScheduler none true)).addedSurfaces) :=
  ⟨by decide, by decide, by decide,
    (layoutMask_routes exampleScene 1 (exampleScheduler none true) (by decide) 63
      (by decide)).2.2 (by decide)⟩

/-! ## Hierarchy binding -/

/-- C12 fails on the code: `nodeRemovedHandler` treats only the removed node
itself.  Node 10 with child 11 carrying surface 5 is added, then removed:
surface 5, which `nodeAddedHandler` had watched and queued for addition, is
still watched, still in the add queue and not in the remove queue.  And when
node 11 was added on its own, its layout-change subscription is still there
after node 10 is removed. -/
theorem nodeRemovedHandler_skips_descendants :
    detachedGraph.descendants 10 = [10, 11] ∧ detachedGraph.surfaces 11 = [5] ∧
    (∃ st, addedThenRemoved = some st ∧
      (5 : SurfacePtr) ∈ st.surfaceLayoutmaskChangedSlots.map Prod.fst ∧
      (5 : SurfacePtr) ∈ st.addedSurfaces ∧ (5 : SurfacePtr) ∉ st.removedSurfaces) ∧
    (∃ st, addedTwiceThenRemoved = some st ∧
      (11 : NodePtr) ∈ st.nodeLayoutChangedSlots.map Prod.fst) := by
  refine ⟨rfl, rfl, ⟨_, rfl, ?_, ?_, ?_⟩, ⟨_, rfl, ?_⟩⟩ <;> decide

/-- C13 fails on the code: `componentRemovedHandler` evaluates the resolver on
`nullptr`, not on the event's target.  With the default resolvers, which read
`node->root()`, the handler dereferences a null pointer and has no result
whenever the removed component is a scene manager, a renderer or a master
scheduler, while `componentAddedHandler` on the same event completes. -/
theorem componentRemovedHandler_resolves_nullptr (graph : SceneGraph) (scene : Scene)
    (target : NodePtr) (p : Nat) (st : AbstractLodScheduler F) :
    componentRemovedHandler (defaultFunctions graph) target (.sceneManager p) st = none ∧
    componentRemovedHandler (defaultFunctions graph) target (.renderer p) st = none ∧
    componentRemovedHandler (defaultFunctions graph) target (.masterLodScheduler p) st = none ∧
    componentAddedHandler (defaultFunctions graph) scene target (.sceneManager p) st =
      some (sceneManagerSet (graph.sceneManager (graph.root target)) st) ∧
    (componentAddedHandler (defaultFunctions graph) scene target (.renderer p) st).isSome ∧
    componentAddedHandler (defaultFunctions graph) scene target (.masterLodScheduler p) st =
      some (masterLodSchedulerSet (graph.masterLodScheduler (graph.root target)) st) := by
  refine ⟨rfl, rfl, rfl, rfl, ?_, rfl⟩
  simp only [componentAddedHandler, defaultFunctions, defaultRendererFunction]
  split <;> rfl

/-! ## HTTP request -/

theorem HTTPRequest.filter_progress {F : Type} (q : HTTPRequest.Notification F → Bool)
    (hq : ∀ r, q (HTTPRequest.Notification.progress r) = false) (l : List F) :
    (l.map HTTPRequest.Notification.progress).filter q = [] := by
  induction l with
  | nil => rfl
  | cons x rest ih => simp [hq, ih]

theorem HTTPRequest.longToInt_of_fits (value : Int) (hlo : -2 ^ 31 ≤ value)
    (hhi : value < 2 ^ 31) : HTTPRequest.longToInt value = value := by
  unfold HTTPRequest.longToInt
  omega

theorem HTTPRequest.createCurl_init {url : List Nat}
    (h : HTTPRequest.createCurl url true ≠ none) : HTTPRequest.createCurl url true = some true := by
  unfold HTTPRequest.createCurl at h ⊢
  cases henc : encodeUrl url with
  | none => simp [henc] at h
  | some e => simp

/-- C11: whenever `createCurl` returns (no handle, or a handle), `run` executes
exactly one of the `error` and `complete` signals; `complete` is executed if
and only if the handle was obtained, the transfer result is `CURLE_OK` and the
response code is 200 or 206, and `error` in every other case; when the handle
was obtained the message of `error` is `status: ` followed by the response code
in decimal, and its code is the response code (for a response code that fits
the `int` argument of the signal). -/
theorem HTTPRequest.run_notifies_once {F : Type} [Zero F] [One F] (url : List Nat)
    (curlEasyInit : Bool) (t : HTTPRequest.Transfer F)
    (hcreated : HTTPRequest.createCurl url curlEasyInit ≠ none) :
    ((HTTPRequest.run url curlEasyInit t).1.filter
        (fun n => n.isError || n.isComplete)).length = 1 ∧
    ((∃ n ∈ (HTTPRequest.run url curlEasyInit t).1, n.isComplete = true) ↔
      (curlEasyInit = true ∧ t.res = HTTPRequest.CURLE_OK ∧
        (t.responseCode = 200 ∨ t.responseCode = 206))) ∧
    ((∃ n ∈ (HTTPRequest.run url curlEasyInit t).1, n.isError = true) ↔
      ¬ (curlEasyInit = true ∧ t.res = HTTPRequest.CURLE_OK ∧
        (t.responseCode = 200 ∨ t.responseCode = 206))) ∧
    (curlEasyInit = true → ∀ code message,
      HTTPRequest.Notification.error code message ∈ (HTTPRequest.run url curlEasyInit t).1 →
        (∃ post, message = "status: " ++ toString t.responseCode ++ post) ∧
        (-2 ^ 31 ≤ t.responseCode → t.responseCode < 2 ^ 31 → code = t.responseCode)) := by
  have hfe := HTTPRequest.filter_progress (F := F) (fun n => n.isError || n.isComplete)
    (fun r => rfl) t.progress
  have hfc := HTTPRequest.filter_progress (F := F) HTTPRequest.Notification.isComplete
    (fun r => rfl) t.progress
  have hfr := HTTPRequest.filter_progress (F := F) HTTPRequest.Notification.isError
    (fun r => rfl) t.progress
  have hex : ∀ (q : HTTPRequest.Notification F → Bool) (l : List (HTTPRequest.Notification F)),
      (∃ n ∈ l, q n = true) ↔ l.filter q ≠ [] := by
    intro q l
    simp [List.filter_eq_nil_iff]
  rw [hex, hex]
  cases curlEasyInit with
  | false =>
      have hc : HTTPRequest.createCurl url false = some false := rfl
      simp [HTTPRequest.run, hc, HTTPRequest.Notification.isError,
        HTTPRequest.Notification.isComplete, List.filter_cons]
  | true =>
      have hc := HTTPRequest.createCurl_init hcreated
      by_cases hok : t.res = HTTPRequest.CURLE_OK ∧ (t.responseCode = 200 ∨ t.responseCode = 206)
      · have hs : (t.res == HTTPRequest.CURLE_OK &&
            (t.responseCode == 200 || t.responseCode == 206)) = true := by
          simpa using hok
        simp only [HTTPRequest.run, hc, hs]
        refine ⟨?_, ?_, ?_, ?_⟩
        · simp [List.filter_cons, List.filter_append, hfe, HTTPRequest.Notification.isError,
            HTTPRequest.Notification.isComplete]
        · simp [hok, List.filter_cons, List.filter_append, hfc,
            HTTPRequest.Notification.isComplete]
        · simp [hok, List.filter_cons, List.filter_append, hfr,
            HTTPRequest.Notification.isError]
        · intro _ code message hmem
          simp at hmem
      · have hs : (t.res == HTTPRequest.CURLE_OK &&
            (t.responseCode == 200 || t.responseCode == 206)) = false := by
          simpa using hok
        simp only [HTTPRequest.run, hc, hs]
        refine ⟨?_, ?_, ?_, ?_⟩
        · simp [List.filter_cons, List.filter_append, hfe, HTTPRequest.Notification.isError,
            HTTPRequest.Notification.isComplete]
        · simp [hok, List.filter_cons, List.filter_append, hfc,
            HTTPRequest.Notification.isComplete]
        · simp [hok, List.filter_cons, List.filter_append, hfr,
            HTTPRequest.Notification.isError]
        · intro _ code message hmem
          simp at hmem
          obtain ⟨hcode, hmsg⟩ := hmem
          refine ⟨⟨_, hmsg⟩, fun hlo hhi => ?_⟩
          rw [hcode]
          exact HTTPRequest.longToInt_of_fits _ hlo hhi

/-- Witness for C11, the spec's scenario: the fetch is answered with status
404. -/
theorem HTTPRequest.run_notifies_once_witness :
    HTTPRequest.createCurl exampleUrl true ≠ none ∧
    ((HTTPRequest.run exampleUrl true notFoundTransfer).1.filter
        (fun n => n.isError || n.isComplete)).length = 1 ∧
    ((∃ n ∈ (HTTPRequest.run exampleUrl true notFoundTransfer).1, n.isError = true) ↔
      ¬ (true = true ∧ notFoundTransfer.res = HTTPRequest.CURLE_OK ∧
        (notFoundTransfer.responseCode = 200 ∨ notFoundTransfer.responseCode = 206))) :=
  ⟨by decide,
    (HTTPRequest.run_notifies_once exampleUrl true notFoundTransfer (by decide)).1,
    (HTTPRequest.run_notifies_once exampleUrl true notFoundTransfer (by decide)).2.2.1⟩

/-- Outside the outcomes of C11: a URL whose last byte is `%` makes
`encodeUrl` throw inside `createCurl`, and `run` is left after the first
`progress` with neither `error` nor `complete` executed. -/
theorem HTTPRequest.run_encodeUrl_throws :
    HTTPRequest.run [104, 37] true notFoundTransfer =
      ([HTTPRequest.Notification.progress 0], false) := by
  decide

/-- The spec's scenario evaluated: one `error` with code 404 and a message
containing 404, no `complete`. -/
theorem HTTPRequest.run_notFound :
    HTTPRequest.run exampleUrl true notFoundTransfer =
      ([HTTPRequest.Notification.progress 0, HTTPRequest.Notification.progress 1,
        HTTPRequest.Notification.error 404 "status: 404"], true) := by
  decide

/-! ## URL encoding -/

theorem streamHex_printable (c : Nat) (hlo : 32 ≤ c) (hhi : c ≤ 126) :
    streamHex (charToInt c) = [hexDigit (c / 16), hexDigit (c % 16)] := by
  interval_cases c <;> decide

theorem hexValue_hexDigit (d : Nat) (hd : d < 16) : hexValue? (hexDigit d) = some d := by
  interval_cases d <;> decide

theorem percentDecode_cons_of_ne (c : Nat) (hc : c ≠ 37) (tail : List Nat) :
    percentDecode (c :: tail) = c :: percentDecode tail := by
  match tail with
  | [] => simp [percentDecode]
  | [d] => simp [percentDecode]
  | d :: e :: rest => simp [percentDecode, hc]

theorem percentDecode_escapeByte (c : Nat) (hlo : 32 ≤ c) (hhi : c ≤ 126) (hc : c ≠ 37)
    (tail : List Nat) : percentDecode (escapeByte c ++ tail) = c :: percentDecode tail := by
  unfold escapeByte
  split
  · exact percentDecode_cons_of_ne c hc tail
  · have h1 := hexValue_hexDigit (c / 16) (by omega)
    have h2 := hexValue_hexDigit (c % 16) (by omega)
    have hsum : 16 * (c / 16) + c % 16 = c := Nat.div_add_mod c 16
    simp [percentDecode, h1, h2, hsum]

theorem encodeUrl_cons_printable (c : Nat) (hlo : 32 ≤ c) (hhi : c ≤ 126) (hc : c ≠ 37)
    (rest : List Nat) :
    encodeUrl (c :: rest) = (encodeUrl rest).map (fun encoded => escapeByte c ++ encoded) := by
  unfold escapeByte
  by_cases hu : (isalnum c || authorizedCharacters.contains c) = true
  · rw [encodeUrl.eq_def]
    simp only [if_neg hc, if_pos hu]
    rfl
  · rw [encodeUrl.eq_def]
    simp only [if_neg hc, if_neg hu, streamHex_printable c hlo hhi]
    rfl

/-- C14: for a URL of printable ASCII bytes without `%`, `encodeUrl` returns,
its result is the URL with every alphanumeric and every one of `/ : ~ - . _`
copied and every other byte replaced by `%` and the two hexadecimal digits of
its code, and percent-decoding the result gives the URL back. -/
theorem encodeUrl_printable (url : List Nat)
    (hprintable : ∀ c ∈ url, 32 ≤ c ∧ c ≤ 126 ∧ c ≠ 37) :
    encodeUrl url = some (url.flatMap escapeByte) ∧
    (∀ c ∈ url, escapeByte c =
      if isalnum c = true ∨ c ∈ [47, 58, 126, 45, 46, 95] then [c]
      else [37, hexDigit (c / 16), hexDigit (c % 16)]) ∧
    percentDecode (url.flatMap escapeByte) = url := by
  refine ⟨?_, ?_, ?_⟩
  · induction url with
    | nil => rfl
    | cons c rest ih =>
        obtain ⟨hlo, hhi, hc⟩ := hprintable c (List.mem_cons_self c rest)
        rw [encodeUrl_cons_printable c hlo hhi hc rest,
          ih (fun d hd => hprintable d (List.mem_cons_of_mem c hd))]
        simp [List.flatMap_cons]
  · intro c _
    simp [escapeByte, authorizedCharacters]
  · induction url with
    | nil => rfl
    | cons c rest ih =>
        obtain ⟨hlo, hhi, hc⟩ := hprintable c (List.mem_cons_self c rest)
        rw [List.flatMap_cons, percentDecode_escapeByte c hlo hhi hc,
          ih (fun d hd => hprintable d (List.mem_cons_of_mem c hd))]

/-- Witness for C14: the URL `http://h/a b?q` becomes `http://h/a%20b%3fq`. -/
theorem encodeUrl_printable_witness :
    (∀ c ∈ exampleUrl, 32 ≤ c ∧ c ≤ 126 ∧ c ≠ 37) ∧
    encodeUrl exampleUrl = some (exampleUrl.flatMap escapeByte) ∧
    percentDecode (exampleUrl.flatMap escapeByte) = exampleUrl :=
  ⟨by decide, (encodeUrl_printable exampleUrl (by decide)).1,
    (encodeUrl_printable exampleUrl (by decide)).2.2⟩

/-- The example URL `http://h/a b?q` is encoded as `http://h/a%20b%3fq`. -/
theorem encodeUrl_example :
    encodeUrl exampleUrl =
      some [104, 116, 116, 112, 58, 47, 47, 104, 47, 97, 37, 50, 48, 98, 37, 51, 102, 113] := by
  decide

end Minko
